import Mathlib

/-!
The program go-jd: a verification development.

Shallow embedding of `autobuy.go` (the goods-list parser) and of the
session / purchase core of `core/jingdong.go`.

Go strings are modelled as lists of characters.  Every separator the code
looks for is an ASCII character, so splitting on characters agrees with Go's
splitting on bytes.  A Go `error` value is an `Option GoError`, `none` being
`nil`.
-/

set_option autoImplicit false

namespace GoJd

/-- A Go string. -/
abbrev GoString := List Char

/-- The message of a non-nil Go error. -/
abbrev GoError := List Char

/-! ## `autobuy.go`: parsing the goods list -/

/-- Go's `strings.Split(s, sep)` for a separator of one character: the pieces
between the occurrences of `sep`, one more than there are occurrences. -/
def Split : GoString → Char → List GoString
  | [], _ => [[]]
  | c :: cs, sep =>
    if c = sep then [] :: Split cs sep
    else match Split cs sep with
      | [] => [[c]]
      | p :: ps => (c :: p) :: ps

/-- Go's `strings.Trim(s, cutset)`: drop the leading and the trailing
characters that occur in `cutset`. -/
def Trim (s : GoString) (cutset : GoString) : GoString :=
  ((s.dropWhile (fun c => cutset.contains c)).reverse.dropWhile
    (fun c => cutset.contains c)).reverse

/-- The value of a decimal digit, if the character is one. -/
def digitVal (c : Char) : Option Nat :=
  if '0' ≤ c ∧ c ≤ '9' then some (c.toNat - '0'.toNat) else none

/-- The outcome of the digit loop of `strconv.ParseUint`. -/
inductive UintResult where
  | value (n : Nat)
  | syntaxErr
  | rangeErr
  deriving DecidableEq, Repr

/-- The digit loop of `strconv.ParseUint(s, 10, bitSize)`: a character that is
no digit is a syntax error, and the loop stops with a range error as soon as
the accumulated value exceeds `2^bitSize - 1`. -/
def parseUintLoop (bitSize : Nat) : GoString → Nat → UintResult
  | [], n => .value n
  | c :: cs, n =>
    match digitVal c with
    | none => .syntaxErr
    | some d =>
      if n * 10 + d > 2 ^ bitSize - 1 then .rangeErr
      else parseUintLoop bitSize cs (n * 10 + d)

/-- Go's `strconv.ParseUint(s, 10, bitSize)`. -/
def ParseUint (s : GoString) (bitSize : Nat) : UintResult :=
  match s with
  | [] => .syntaxErr
  | _ => parseUintLoop bitSize s 0

/-- Go's `strconv.ParseInt(s, 10, bitSize)`: the value and the error.  A syntax
error comes with the value 0, a range error with the nearest value of the bit
size. -/
def ParseInt (s : GoString) (bitSize : Nat) : Int × Option GoError :=
  match s with
  | [] => (0, some "invalid syntax".toList)
  | c :: cs =>
    let neg := decide (c = '-')
    let rest := if c = '+' ∨ c = '-' then cs else c :: cs
    let cutoff : Nat := 2 ^ (bitSize - 1)
    match ParseUint rest bitSize with
    | .syntaxErr => (0, some "invalid syntax".toList)
    | .rangeErr =>
      if neg then (-(cutoff : Int), some "value out of range".toList)
      else ((cutoff : Int) - 1, some "value out of range".toList)
    | .value un =>
      if !neg ∧ un ≥ cutoff then ((cutoff : Int) - 1, some "value out of range".toList)
      else if neg ∧ un > cutoff then (-(cutoff : Int), some "value out of range".toList)
      else if neg then (-(un : Int), none)
      else ((un : Int), none)

/-- A Go `map[string]int`: an association list with pairwise distinct keys. -/
abbrev GoMap := List (GoString × Int)

/-- The assignment `m[k] = v`. -/
def GoMap.set : GoMap → GoString → Int → GoMap
  | [], k, v => [(k, v)]
  | (k', v') :: m, k, v =>
    if k' = k then (k, v) :: m else (k', v') :: GoMap.set m k v

/-- The lookup `m[k]`, `none` when the key is absent. -/
def GoMap.get : GoMap → GoString → Option Int
  | [], _ => none
  | (k', v') :: m, k => if k' = k then some v' else GoMap.get m k

/-- The item ID of one comma-separated entry: `strings.Trim(pair[0], " ")`
for `pair := strings.Split(good, ":")`. -/
def goodName (good : GoString) : GoString :=
  Trim ((Split good ':').headD []) [' ']

/-- The body of the loop of `parseGoods` for one entry `good`. -/
def parseGood (lst : GoMap) (good : GoString) : GoMap :=
  let pair := Split good ':'
  let name := Trim (pair.headD []) [' ']
  if pair.length = 2 then
    lst.set name (ParseInt (pair.getD 1 []) 32).1
  else
    lst.set name 1

/-- The entries the loop of `parseGoods` ranges over: the pieces of
`strings.Split(goods, ",")`, and none for the empty string, for which
`parseGoods` returns before the loop. -/
def goodsEntries (goods : GoString) : List GoString :=
  if goods = [] then [] else Split goods ','

/-- The function `parseGoods` of `autobuy.go`. -/
def parseGoods (goods : GoString) : GoMap :=
  (goodsEntries goods).foldl parseGood []

/-! ## `core/cookies.go`: the cookie jar -/

/-- The fields of an `http.Cookie` the program reads. -/
structure Cookie where
  Name : GoString
  Value : GoString
  deriving DecidableEq, Repr

/-- The slice `jar.cookies` of a `SimpleJar`. -/
abbrev SimpleJar := List Cookie

/-- One round of the outer loop of `SimpleJar.SetCookies`: the first cookie of
the jar with the name of `newone` is overwritten, and `newone` is appended when
there is none. -/
def SimpleJar.setCookie : SimpleJar → Cookie → SimpleJar
  | [], newone => [newone]
  | old :: rest, newone =>
    if newone.Name = old.Name then newone :: rest
    else old :: SimpleJar.setCookie rest newone

/-- The method `SimpleJar.SetCookies`. -/
def SimpleJar.SetCookies (jar : SimpleJar) (cookies : List Cookie) : SimpleJar :=
  if cookies.length = 0 then jar else cookies.foldl SimpleJar.setCookie jar

/-- The method `SimpleJar.Cookies`. -/
def SimpleJar.Cookies (jar : SimpleJar) : List Cookie := jar

/-- The method `SimpleJar.Clean`. -/
def SimpleJar.Clean (_jar : SimpleJar) : SimpleJar := []

/-- The method `SimpleJar.Get`. -/
def SimpleJar.Get : SimpleJar → GoString → GoString
  | [], _ => []
  | v :: rest, name => if v.Name = name then v.Value else SimpleJar.Get rest name

/-! ## `core/jingdong.go`: the world the program talks to -/

/-- A decoded JSON value, as `go-simplejson` holds it (numbers are kept as
their literal, the decoder running with `UseNumber`). -/
inductive Json where
  | null
  | bool (b : Bool)
  | num (lit : GoString)
  | str (s : GoString)
  | arr (xs : List Json)
  | obj (kvs : List (GoString × Json))

/-- The `*sjson.Json` method `Get`: the member of an object, the null value
when the receiver is no object or has no such member. -/
def Json.Get : Json → GoString → Json
  | .obj kvs, key => (kvs.lookup key).getD .null
  | _, _ => .null

/-- The `*sjson.Json` method `CheckGet`. -/
def Json.CheckGet : Json → GoString → Option Json
  | .obj kvs, key => kvs.lookup key
  | _, _ => none

/-- The `*sjson.Json` method `GetIndex`. -/
def Json.GetIndex : Json → Nat → Json
  | .arr xs, i => xs.getD i .null
  | _, _ => .null

/-- The `*sjson.Json` method `Int` (on a 64-bit platform): a number is read
by `strconv.ParseInt(lit, 10, 64)`, anything else is an error with value 0. -/
def Json.asInt : Json → Int × Option GoError
  | .num lit => ParseInt lit 64
  | _ => (0, some "invalid value type".toList)

/-- The `*sjson.Json` method `String`. -/
def Json.asString : Json → GoString × Option GoError
  | .str s => (s, none)
  | _ => ([], some "type assertion to string failed".toList)

/-- The `*sjson.Json` method `Bool`. -/
def Json.asBool : Json → Bool × Option GoError
  | .bool b => (b, none)
  | _ => (false, some "type assertion to bool failed".toList)

/-- The `*sjson.Json` method `MustInt` without a default. -/
def Json.MustInt (j : Json) : Int :=
  match j.asInt with
  | (i, none) => i
  | (_, some _) => 0

/-- The `*sjson.Json` method `MustString` without a default. -/
def Json.MustString (j : Json) : GoString :=
  match j.asString with
  | (s, none) => s
  | (_, some _) => []

/-- A parsed HTML document, as far as the program queries it through
`goquery`: the text of a selection and an attribute of its first element. -/
structure Document where
  Text : GoString → GoString
  Attr : GoString → GoString → Option GoString

/-- An `*http.Response`: status code, headers, the cookies it sets, the bytes of
the body and the error reading the body ends with. -/
structure Response where
  StatusCode : Nat
  Header : List (GoString × GoString)
  SetCookie : List Cookie
  Body : GoString
  ReadErr : Option GoError

/-- The method `resp.Header.Get`: the empty string for an absent header. -/
def Response.HeaderGet (resp : Response) (key : GoString) : GoString :=
  (resp.Header.lookup key).getD []

/-- The requests the program sends, each with the parameters that select the
answer.  The time stamps and random numbers of the query strings are left
out. -/
inductive Request where
  /-- GET `URLForQR[4]` with redirects disabled. -/
  | verifyRight
  /-- GET `URLForQR[0]`. -/
  | loginPage
  /-- GET `URLForQR[1]`. -/
  | qrShow
  /-- GET `URLForQR[2]` with the token of the cookie `wlfstk_smdl`. -/
  | qrCheck (wlfstk : GoString)
  /-- GET `URLForQR[3]` with the ticket. -/
  | ticketValidation (t : GoString)
  /-- GET `http://item.jd.com/<ID>.html`. -/
  | item (ID : GoString)
  /-- GET `URLGoodsPrice`. -/
  | price (ID : GoString)
  /-- GET `URLSKUState`. -/
  | stocks (ID : GoString) (area : GoString)
  /-- GET of a purchase link. -/
  | link (URL : GoString)
  /-- POST `URLChangeCount`. -/
  | changeNum (ID : GoString) (count : Int) (area : GoString)
  /-- GET `URLCartInfo`. -/
  | cartInfo
  /-- GET `URLOrderInfo`. -/
  | orderInfo
  /-- POST `URLSubmitOrder`. -/
  | submitOrder (trackID : GoString)
  deriving DecidableEq, Repr

/-- What a run of the program does outside of its own memory. -/
inductive Event where
  /-- A call of `jd.client.Do`. -/
  | request (r : Request)
  /-- A call of `time.Sleep`, the duration in milliseconds. -/
  | sleep (ms : Nat)
  /-- A call of `jd.jar.Clean`. -/
  | jarClean
  /-- A call of `cmd.Start` for the command `name arg`. -/
  | start (name : GoString) (arg : GoString)
  /-- The QR image is written to the file. -/
  | saveFile (filename : GoString)
  /-- The send `submitOrderSemp <- 1`. -/
  | submitSignal
  deriving DecidableEq, Repr

/-- The library functions and the operating system, fixed for a run. -/
structure Site where
  /-- The value of `runtime.GOOS`. -/
  goos : GoString
  /-- The directory `os.Getwd` returns. -/
  cwd : GoString
  /-- The function `filepath.Join` of two elements. -/
  pathJoin : GoString → GoString → GoString
  /-- The outcome of `cmd.Start` for `exec.Command(name, arg)`. -/
  start : GoString → GoString → Option GoError
  /-- The outcome of `io.Copy` into the file `os.Create(filename)` gave, from a
  body with the given bytes and read error. -/
  saveFile : GoString → GoString → Option GoError → Option GoError
  /-- The extensions `mime.ExtensionsByType` gives for the media type of a
  `Content-Type` header. -/
  mimeExtensions : GoString → Except GoError (List GoString)
  /-- What reading through `gzip.NewReader` yields: `none` when the reader
  cannot be created. -/
  gunzip : GoString → Option GoError → Option (GoString × Option GoError)
  /-- The function `url.Parse`, its error. -/
  urlParse : GoString → Option GoError
  /-- The function `url.QueryEscape`. -/
  queryEscape : GoString → GoString
  /-- The function `sjson.NewJson`. -/
  newJson : GoString → Except GoError Json
  /-- The function `json.NewDecoder(resp.Body).Decode(&res)` on the bytes of a
  body and the error reading it ends with, giving `res.URL`. -/
  decodeURL : GoString → Option GoError → Except GoError GoString
  /-- The function `goquery.NewDocumentFromReader`. -/
  newDocument : GoString → Except GoError Document
  /-- The GBK decoder `mahonia.NewDecoder("gbk").ConvertString`. -/
  gbk : GoString → GoString

/-- The struct `JingDong`: the configuration `JDConfig` (the period in
milliseconds), the cookie jar and the token. -/
structure JingDong where
  Period : Nat
  ShipArea : GoString
  AutoRush : Bool
  AutoSubmit : Bool
  jar : SimpleJar
  token : GoString

/-- The state of a run: the library and the system, the answers the network
will give to each request (the answer to the next one at index 0), the object
`jd`, and the events so far. -/
structure World where
  site : Site
  answer : Request → Nat → Except GoError Response
  jd : JingDong
  log : List Event

/-- How a call ends: it returns a value, or the program panics, or the call
is still in its polling loop when the steps granted to the loop are used up. -/
inductive Res (α : Type) where
  | ok (a : α) (w : World)
  | panic (w : World)
  | running (w : World)

/-- A computation on the world. -/
def Sim (α : Type) : Type := World → Res α

/-- A computation that returns at once. -/
def Sim.pure {α : Type} (a : α) : Sim α := fun w => .ok a w

/-- Sequencing: a panic ends the run. -/
def Sim.bind {α β : Type} (m : Sim α) (f : α → Sim β) : Sim β := fun w =>
  match m w with
  | .ok a w1 => f a w1
  | .panic w1 => .panic w1
  | .running w1 => .running w1

instance : Monad Sim where
  pure := Sim.pure
  bind := Sim.bind

/-- A run-time panic. -/
def Sim.panic {α : Type} : Sim α := fun w => .panic w

/-- The polling loop has used up its steps. -/
def Sim.running {α : Type} : Sim α := fun w => .running w

/-- Append an event to the log. -/
def emit (e : Event) : Sim Unit := fun w => .ok () { w with log := w.log ++ [e] }

/-- The library and the system. -/
def getSite : Sim Site := fun w => .ok w.site w

/-- The object `jd`. -/
def getJD : Sim JingDong := fun w => .ok w.jd w

/-- An assignment to a field of `jd`. -/
def modifyJD (f : JingDong → JingDong) : Sim Unit :=
  fun w => .ok () { w with jd := f w.jd }

/-- The method `jd.client.Do`: the request is logged, the next answer to it is
consumed, and the cookies of a response go into the jar. -/
def clientDo (r : Request) : Sim (Except GoError Response) := fun w =>
  let w1 : World :=
    { w with
      answer := fun r1 n => if r1 = r then w.answer r1 (n + 1) else w.answer r1 n
      log := w.log ++ [.request r] }
  match w.answer r 0 with
  | .error e => .ok (.error e) w1
  | .ok resp =>
    .ok (.ok resp) { w1 with jd := { w1.jd with jar := w1.jd.jar.SetCookies resp.SetCookie } }

/-- Reading a response body with `ioutil.ReadAll`, through `gzip.NewReader`
when the response is gzip-encoded.  The error of `gzip.NewReader` is dropped
by the code, and reading from the nil reader it leaves panics. -/
def readAll (resp : Response) : Sim (GoString × Option GoError) := do
  let site ← getSite
  if resp.HeaderGet "Content-Encoding".toList = "gzip".toList then
    match site.gunzip resp.Body resp.ReadErr with
    | none => Sim.panic
    | some r => pure r
  else
    pure (resp.Body, resp.ReadErr)

/-- The function `responseData`. -/
def responseData (resp : Response) : Sim GoString := do
  let (data, err) ← readAll resp
  match err with
  | some _ => pure []
  | none => pure data

/-! ## `core/jingdong.go`: logging in -/

/-- The file name `qrCodeFile`. -/
def qrCodeFile : GoString := "jd.qr".toList

/-- The method `validateLogin`, called with `URLForQR[4]`.  Here and in the
other methods that send a constant URL, `http.NewRequest` does not fail and
its error branch is left out; log output is not modelled. -/
def validateLogin : Sim Bool := do
  match ← clientDo .verifyRight with
  | .error _ => pure false
  | .ok resp =>
    if resp.StatusCode ≠ 200 then pure false
    else pure true

/-- The method `loginPage`, called with `URLForQR[0]`. -/
def loginPage : Sim (Option GoError) := do
  match ← clientDo .loginPage with
  | .error err => pure (some err)
  | .ok _ => pure none

/-- The method `loadQRCode`, called with `URLForQR[1]`: the file name and the
error.  Indexing the empty extension list `typ[0]` panics. -/
def loadQRCode : Sim (GoString × Option GoError) := do
  match ← clientDo .qrShow with
  | .error err => pure ([], some err)
  | .ok resp =>
    let site ← getSite
    let name ←
      (match site.mimeExtensions (resp.HeaderGet "Content-Type".toList) with
       | .error _ => pure (qrCodeFile ++ ".png".toList)
       | .ok [] => Sim.panic
       | .ok (typ0 :: _) => pure (qrCodeFile ++ typ0) : Sim GoString)
    let filename := site.pathJoin site.cwd name
    emit (.saveFile filename)
    match site.saveFile filename resp.Body resp.ReadErr with
    | some err => pure ([], some err)
    | none => pure (filename, none)

/-- Go's `strings.Index(s, sep)` for a separator of one character, as a
position in the list. -/
def indexOf? : GoString → Char → Option Nat
  | [], _ => none
  | x :: xs, c => if x = c then some 0 else (indexOf? xs c).map (· + 1)

/-- Go's `strings.Index`: `-1` when the separator does not occur. -/
def Index (s : GoString) (c : Char) : Int :=
  match indexOf? s c with
  | some i => (i : Int)
  | none => -1

/-- The slice expression `s[lo:hi]`, `none` when it panics. -/
def slice (s : GoString) (lo hi : Int) : Option GoString :=
  if 0 ≤ lo ∧ lo ≤ hi ∧ hi ≤ (s.length : Int) then
    some ((s.drop lo.toNat).take (hi - lo).toNat)
  else none

/-- The polling loop of `waitForScan`, `retry` counting down. -/
def scanLoop (req : Request) : Nat → Sim Unit
  | 0 => pure ()
  | retry + 1 => do
    match ← clientDo req with
    | .error _ => pure ()
    | .ok resp =>
      if resp.StatusCode = 200 then do
        let respMsg ← responseData resp
        let n1 := Index respMsg '('
        let n2 := Index respMsg ')'
        match slice respMsg (n1 + 1) n2 with
        | none => Sim.panic
        | some payload =>
          let site ← getSite
          match site.newJson payload with
          | .error _ => pure ()
          | .ok js =>
            let code := (js.Get "code".toList).MustInt
            if code = 200 then
              modifyJD (fun jd => { jd with token := (js.Get "ticket".toList).MustString })
            else do
              emit (.sleep 3000)
              scanLoop req retry
      else scanLoop req retry

/-- The method `waitForScan`, called with `URLForQR[2]`. -/
def waitForScan : Sim (Option GoError) := do
  let jd0 ← getJD
  let wlfstk :=
    match jd0.jar.Cookies.find? (fun c => c.Name = "wlfstk_smdl".toList) with
    | some c => c.Value
    | none => []
  scanLoop (.qrCheck wlfstk) 50
  let jd ← getJD
  if jd.token = [] then pure (some "未检测到QR扫码结果".toList)
  else pure none

/-- The method `runCommand`. -/
def runCommand (strCmd : GoString) : Sim (Option GoError) := do
  let site ← getSite
  let name : GoString :=
    if site.goos = "windows".toList then "cmd /c start".toList
    else if site.goos = "linux".toList then "eog".toList
    else "open".toList
  emit (.start name strCmd)
  match site.start name strCmd with
  | some err =>
    if site.goos = "linux".toList then do
      emit (.start "gnome-open".toList strCmd)
      pure (site.start "gnome-open".toList strCmd)
    else pure (some err)
  | none => pure none

/-- The method `validateQRToken`, called with `URLForQR[3]`. -/
def validateQRToken : Sim (Option GoError) := do
  let jd ← getJD
  match ← clientDo (.ticketValidation jd.token) with
  | .error _ => pure none
  | .ok resp =>
    if resp.HeaderGet "P3P".toList = [] then do
      let site ← getSite
      match site.decodeURL resp.Body resp.ReadErr with
      | .ok resURL =>
        if resURL ≠ [] then do
          let verifyURL :=
            if "https:".toList.isPrefixOf resURL then resURL else "https:".toList ++ resURL
          let _ ← runCommand verifyURL
          pure ()
        else pure ()
      | .error _ => pure ()
      pure (some "login failed".toList)
    else
      pure none

/-- The method `Login`. -/
def Login : Sim (Option GoError) := do
  if ← validateLogin then pure none
  else do
    emit .jarClean
    modifyJD (fun jd => { jd with jar := jd.jar.Clean })
    match ← loginPage with
    | some err => pure (some err)
    | none =>
      match ← loadQRCode with
      | (_, some err) => pure (some err)
      | (qrImg, none) =>
        match ← runCommand qrImg with
        | some err => pure (some err)
        | none =>
          match ← waitForScan with
          | some err => pure (some err)
          | none =>
            match ← validateQRToken with
            | some err => pure (some err)
            | none => pure none

/-! ## `core/jingdong.go`: probing and buying one item -/

/-- The struct `SKUInfo`. -/
structure SKUInfo where
  ID : GoString
  Price : GoString
  Count : Int
  State : GoString
  StateName : GoString
  Name : GoString
  Link : GoString
  deriving DecidableEq, Repr

/-- The constant `URLAdd2Cart`. -/
def URLAdd2Cart : GoString := "https://cart.jd.com/gate.action".toList

/-- The length `maxNameLen`. -/
def maxNameLen : Nat := 40

/-- Go's `strconv.Itoa`. -/
def Itoa (n : Int) : GoString := (toString n).toList

/-- The function `truncate`. -/
def truncate (str : GoString) : GoString :=
  if str.length > maxNameLen then str.take (maxNameLen - 1) ++ "...".toList
  else str

/-- The URL of a request that is made of text the program does not escape:
a purchase link, and the item page, whose URL is
`fmt.Sprintf("http://item.jd.com/%s.html", ID)`.  The URLs of the other
requests are constants with a query that `url.Values.Encode` escapes. -/
def Request.rawURL : Request → Option GoString
  | .link URL => some URL
  | .item ID => some ("http://item.jd.com/".toList ++ ID ++ ".html".toList)
  | _ => none

/-- The method `getResponse`: the data and the error of `ioutil.ReadAll`.
`http.NewRequest` fails only for a URL that `url.Parse` rejects, which the
constant URLs with an escaped query are not. -/
def getResponse (r : Request) : Sim (GoString × Option GoError) := do
  let site ← getSite
  let reqErr : Option GoError :=
    match r.rawURL with
    | some URL => site.urlParse URL
    | none => none
  match reqErr with
  | some err => pure ([], some err)
  | none =>
    match ← clientDo r with
    | .error err => pure ([], some err)
    | .ok resp => readAll resp

/-- The method `getPrice`. -/
def getPrice (ID : GoString) : Sim (GoString × Option GoError) := do
  match ← getResponse (.price ID) with
  | (_, some err) => pure ([], some err)
  | (data, none) =>
    let site ← getSite
    match site.newJson data with
    | .error err => pure ([], some err)
    | .ok js => pure (((js.GetIndex 0).Get "p".toList).asString)

/-- The method `stockState`: the state, its name and the error. -/
def stockState (ID : GoString) : Sim (GoString × GoString × Option GoError) := do
  let jd ← getJD
  match ← getResponse (.stocks ID jd.ShipArea) with
  | (_, some err) => pure ([], [], some err)
  | (data, none) =>
    let site ← getSite
    let decString := site.gbk data
    match site.newJson decString with
    | .error err => pure ([], [], some err)
    | .ok js =>
      match js.CheckGet ID with
      | some sku =>
        let skuState := (sku.Get "StockState".toList).asInt.1
        let skuStateName := (sku.Get "StockStateName".toList).asString.1
        pure (Itoa skuState, skuStateName, none)
      | none => pure ([], [], some "无效响应数据".toList)

/-- The method `skuDetail`: `none` for the nil pointer. -/
def skuDetail (ID : GoString) : Sim (Option SKUInfo × Option GoError) := do
  match ← getResponse (.item ID) with
  | (_, some err) => pure (none, some err)
  | (data, none) =>
    let site ← getSite
    match site.newDocument data with
    | .error err => pure (none, some err)
    | .ok doc =>
      let gLink : GoString :=
        match doc.Attr "a#InitCartUrl".toList "href".toList with
        | some link =>
          if "https:".toList.isPrefixOf link then link else "https:".toList ++ link
        | none => []
      let gName := truncate (Trim (site.gbk (doc.Text "div.sku-name".toList)) " \t\n".toList)
      let (gPrice, _) ← getPrice ID
      let (gState, gStateName, _) ← stockState ID
      pure (some { ID := ID, Price := gPrice, Count := 0, State := gState,
                   StateName := gStateName, Name := gName, Link := gLink }, none)

/-- The method `changeCount`.  The error of `sjson.NewJson` is dropped by the
code, and `Get` on the nil pointer it leaves panics. -/
def changeCount (ID : GoString) (count : Int) : Sim (Int × Option GoError) := do
  let jd ← getJD
  match ← getResponse (.changeNum ID count jd.ShipArea) with
  | (_, some err) => pure (0, some err)
  | (data, none) =>
    let site ← getSite
    match site.newJson data with
    | .error _ => Sim.panic
    | .ok js => pure ((js.Get "pcount".toList).asInt)

/-- The loop at the head of `buyGood`, which has no bound of its own: `fuel` is
the number of rounds granted.  It gives the item as the loop leaves it and the
error of the last probe. -/
def rushLoop : Nat → SKUInfo → Sim (SKUInfo × Option GoError)
  | 0, sku => do
    let jd ← getJD
    if sku.State = "34".toList ∧ jd.AutoRush = true then Sim.running
    else pure (sku, none)
  | fuel + 1, sku => do
    let jd ← getJD
    if sku.State = "34".toList ∧ jd.AutoRush = true then do
      emit (.sleep jd.Period)
      let (state, stateName, err) ← stockState sku.ID
      let sku1 := { sku with State := state, StateName := stateName }
      match err with
      | some e => pure (sku1, some e)
      | none => rushLoop fuel sku1
    else pure (sku, none)

/-- The link `buyGood` requests: the canonical link of the item, or the
add-to-cart link it builds when there is none or the count is not 1 (the query
in the order `url.Values.Encode` gives it). -/
def purchaseLink (site : Site) (sku : SKUInfo) : GoString :=
  if sku.Link = [] ∨ sku.Count ≠ 1 then
    URLAdd2Cart ++ "?pcount=".toList ++ site.queryEscape (Itoa sku.Count)
      ++ "&pid=".toList ++ site.queryEscape sku.ID ++ "&ptype=1".toList
  else sku.Link

/-- The part of `buyGood` after the polling loop. -/
def addToCart (sku : SKUInfo) : Sim (Option GoError) := do
  let site ← getSite
  let link := purchaseLink site sku
  match site.urlParse link with
  | some _ => pure (some ("无效商品购买链接<".toList ++ link ++ ">".toList))
  | none =>
    match ← getResponse (.link link) with
    | (_, some err) => pure (some err)
    | (data, none) =>
      match site.newDocument data with
      | .error err => pure (some err)
      | .ok doc =>
        -- the variable `err` is nil here: every assignment so far was checked
        let err0 : Option GoError := none
        let succFlag0 := doc.Text "h3.ftx-02".toList
        let succFlag :=
          if succFlag0 = [] then doc.Text "div.p-name a".toList else succFlag0
        if succFlag ≠ [] then do
          let (count, err) ←
            (if sku.Count > 1 then changeCount sku.ID sku.Count
             else pure (0, err0) : Sim (Int × Option GoError))
          if count > 0 then pure none
          else pure err
        else pure err0

/-- The method `buyGood`, its polling loop granted `fuel` rounds. -/
def buyGood (fuel : Nat) (sku : SKUInfo) : Sim (Option GoError) := do
  match ← rushLoop fuel sku with
  | (_, some err) => pure (some err)
  | (sku1, none) => addToCart sku1

/-- The method `OrderInfo`. -/
def OrderInfo : Sim (Option GoError) := do
  match ← clientDo .orderInfo with
  | .error err => pure (some err)
  | .ok resp =>
    let site ← getSite
    match resp.ReadErr with
    | some err => pure (some err)
    | none =>
      match site.newDocument resp.Body with
      | .error err => pure (some err)
      | .ok _ => pure none

/-- The body of the goroutine `RushBuy` starts for the item `id`, the polling
loop of `buyGood` granted `fuel` rounds. -/
def rushTask (fuel : Nat) (id : GoString) (count : Int) : Sim Unit := do
  match ← skuDetail id with
  | (_, some _) => pure ()
  | (none, none) => Sim.panic
  | (some sku, none) =>
    let _ ← buyGood fuel { sku with Count := count }
    let _ ← OrderInfo
    let jd ← getJD
    if jd.AutoSubmit = true then emit .submitSignal
    else pure ()

/-! ## Reading off the outcome of a run -/

/-- The world a call leaves behind. -/
def Res.world {α : Type} : Res α → World
  | .ok _ w => w
  | .panic w => w
  | .running w => w

/-- The value a call returns, `none` when it does not return. -/
def Res.value? {α : Type} : Res α → Option α
  | .ok a _ => some a
  | .panic _ => none
  | .running _ => none

/-- The world `w` with the next `i` answers to the request `r` left out. -/
def World.skip (w : World) (r : Request) (i : Nat) : World :=
  { w with answer := fun r1 n => if r1 = r then w.answer r1 (n + i) else w.answer r1 n }

/-- The state the stock probes of an item report, one after the other: the
initial probe is the one `skuDetail` stored in `sku.State`, and probe `i + 1`
is the `i`-th call of `stockState` that `buyGood` makes; `none` when that call
returns an error or does not return. -/
def probeState (w : World) (sku : SKUInfo) : Nat → Option GoString
  | 0 => some sku.State
  | i + 1 =>
    match (stockState sku.ID (w.skip (.stocks sku.ID w.jd.ShipArea) i)).value? with
    | some (state, _, none) => some state
    | _ => none

/-- The events of `k` rounds of the polling loop: a sleep of the period, then
the stock request. -/
def pollCycles (period : Nat) (r : Request) : Nat → List Event
  | 0 => []
  | k + 1 => .sleep period :: .request r :: pollCycles period r k

/-- The events of polling: a sleep and a stock request. -/
def Event.isPoll : Event → Bool
  | .sleep _ => true
  | .request (.stocks _ _) => true
  | _ => false

/-- A computation that returns or panics, and logs no polling event. -/
def Sim.NoPoll {α : Type} (m : Sim α) : Prop :=
  ∀ w, (∃ l, (m w).world.log = w.log ++ l ∧ ∀ e ∈ l, e.isPoll = false) ∧
    ∀ w1, m w ≠ .running w1

/-- The world `w1` is a later stage of the world `w`: the library and the
system are the same, and the answers still to come are those of `w` with some
of them consumed. -/
def Later (w w1 : World) : Prop :=
  w1.site = w.site ∧ ∃ k : Request → Nat, ∀ r n, w1.answer r n = w.answer r (n + k r)

/-- A computation that only moves the world forward. -/
def Sim.Mono {α : Type} (m : Sim α) : Prop := ∀ w, Later w (m w).world

/-- A computation that returns in every world. -/
def Sim.Total {α : Type} (m : Sim α) : Prop := ∀ w, ∃ a w1, m w = .ok a w1

/-- A computation that returns or panics and leaves the world as it is. -/
def Sim.Still {α : Type} (m : Sim α) : Prop :=
  ∀ w, (m w).world = w ∧ ∀ w1, m w ≠ .running w1

/-- A computation that adds to the log at most `n` requests `req`, and besides
them only sleeps of three seconds. -/
def Sim.PollsAtMost {α : Type} (req : Request) (n : Nat) (m : Sim α) : Prop :=
  ∀ w, ∃ l, (m w).world.log = w.log ++ l ∧ l.count (.request req) ≤ n ∧
    ∀ e ∈ l, e = .request req ∨ e = .sleep 3000

/-- Every answer the world still has for the token validation is a response
without the `P3P` header. -/
def NoMarker (w : World) : Prop :=
  ∀ t n, ∃ resp, w.answer (.ticketValidation t) n = .ok resp ∧
    resp.HeaderGet "P3P".toList = []

/-! ## Concrete worlds -/

/-- The payload of a confirmation poll that reports the scan, ticket `T`. -/
def scannedPayload : GoString := "\x7b\"code\":200,\"ticket\":\"T\"\x7d".toList

/-- A stock payload for the item 100 with the given state. -/
def stockPayload (state : GoString) : GoString :=
  "\x7b\"100\":\x7b\"StockState\":".toList ++ state ++ "\x7d\x7d".toList

/-- The payload of a set-quantity answer that reports the count 0. -/
def zeroCountPayload : GoString := "\x7b\"pcount\":0\x7d".toList

/-- A cart page with the confirmation heading. -/
def addedPage : GoString := "<h3 class=\"ftx-02\">商品已成功加入购物车！</h3>".toList

/-- A cart page with neither the confirmation heading nor a product name. -/
def blankPage : GoString := "<html><body></body></html>".toList

/-- A JSON decoder that knows the payloads above. -/
def demoJson (s : GoString) : Except GoError Json :=
  if s = scannedPayload then
    .ok (.obj [("code".toList, .num "200".toList), ("ticket".toList, .str "T".toList)])
  else if s = stockPayload "34".toList then
    .ok (.obj [("100".toList, .obj [("StockState".toList, .num "34".toList)])])
  else if s = stockPayload "33".toList then
    .ok (.obj [("100".toList, .obj [("StockState".toList, .num "33".toList)])])
  else if s = zeroCountPayload then
    .ok (.obj [("pcount".toList, .num "0".toList)])
  else .error "invalid character".toList

/-- An HTML parser that knows the pages above. -/
def demoDocument (data : GoString) : Except GoError Document :=
  .ok { Text := fun sel =>
          if sel = "h3.ftx-02".toList ∧ data = addedPage then
            "商品已成功加入购物车！".toList
          else []
        Attr := fun _ _ => none }

/-- A Linux system on which every command starts and every file is written. -/
def demoSite : Site where
  goos := "linux".toList
  cwd := "/tmp".toList
  pathJoin := fun dir name => dir ++ "/".toList ++ name
  start := fun _ _ => none
  saveFile := fun _ _ _ => none
  mimeExtensions := fun _ => .ok [".png".toList]
  gunzip := fun _ _ => none
  urlParse := fun _ => none
  queryEscape := fun s => s
  newJson := demoJson
  decodeURL := fun _ _ => .ok "//safe.jd.com/dangerousVerify/index.action".toList
  newDocument := demoDocument
  gbk := fun s => s

/-- A response with the given status and body, without headers. -/
def plainResponse (status : Nat) (body : GoString) : Response where
  StatusCode := status
  Header := []
  SetCookie := []
  Body := body
  ReadErr := none

/-- A fresh `JingDong` in rush-mode, with an empty jar and no token. -/
def demoJD : JingDong where
  Period := 100
  ShipArea := "1_72_2799_0".toList
  AutoRush := true
  AutoSubmit := false
  jar := []
  token := []

/-- A fresh run over the given answers. -/
def demoWorld (answer : Request → Nat → Except GoError Response) : World where
  site := demoSite
  answer := answer
  jd := demoJD
  log := []

/-- A site on which the session is still valid: every request is answered
with 200. -/
def validSession : Request → Nat → Except GoError Response :=
  fun _ _ => .ok (plainResponse 200 [])

/-- A site that redirects the validity check, reports the scan at the first
confirmation poll and fails the later polls, and answers the token validation
with `validation`. -/
def handshake (validation : Except GoError Response) :
    Request → Nat → Except GoError Response
  | .verifyRight, _ => .ok (plainResponse 302 [])
  | .qrCheck _, 0 => .ok (plainResponse 200 ("jQuery123456(".toList ++ scannedPayload ++ ")".toList))
  | .qrCheck _, _ => .error "timeout".toList
  | .ticketValidation _, _ => validation
  | _, _ => .ok (plainResponse 200 [])

/-- A token validation answer without the `P3P` header. -/
def verifyDemand : Except GoError Response :=
  .ok (plainResponse 200 "\x7b\"url\":\"//safe.jd.com/dangerousVerify/index.action\"\x7d".toList)

/-- A shop: the price query is answered with `price`, the `n`-th stock query
with `stock n`, a purchase link with the page `cart`, and a set-quantity call
with the count 0. -/
def shop (price : Except GoError Response) (stock : Nat → GoString) (cart : GoString) :
    Request → Nat → Except GoError Response
  | .price _, _ => price
  | .stocks _ _, n => .ok (plainResponse 200 (stockPayload (stock n)))
  | .link _, _ => .ok (plainResponse 200 cart)
  | .changeNum _ _ _, _ => .ok (plainResponse 200 zeroCountPayload)
  | _, _ => .ok (plainResponse 200 [])

/-- The item 100, with the given count and stock state, and a canonical link. -/
def demoSKU (count : Int) (state : GoString) : SKUInfo where
  ID := "100".toList
  Price := "1999.00".toList
  Count := count
  State := state
  StateName := []
  Name := "item".toList
  Link := "https://cart.jd.com/gate.action?pid=100&pcount=1&ptype=1".toList

/-- A shop where the item is in stock and the cart page has no success
marker. -/
def blankShop : World :=
  demoWorld (shop (.ok (plainResponse 200 [])) (fun _ => "33".toList) blankPage)

/-- A shop where the item is in stock and the cart page confirms. -/
def addedShop : World :=
  demoWorld (shop (.ok (plainResponse 200 [])) (fun _ => "33".toList) addedPage)

/-- A shop where the item is in stock and the price query times out. -/
def priceDownShop : World :=
  demoWorld (shop (.error "timeout".toList) (fun _ => "33".toList) addedPage)

/-- A shop where the first re-probe still reports state 34 and the later ones
state 33. -/
def restockShop : World :=
  demoWorld (shop (.ok (plainResponse 200 []))
    (fun n => if n = 0 then "34".toList else "33".toList) addedPage)

/-- A network that is down. -/
def offline : World := demoWorld (fun _ _ => .error "timeout".toList)

/-! ## `autobuy.go`: the range of a quantity -/

/-- The quantities `parseGoods` can store: the values of a signed 32-bit
integer. -/
def isInt32 (v : Int) : Prop := -(2 ^ 31 : Int) ≤ v ∧ v ≤ (2 ^ 31 : Int) - 1

/-! ## `core/jingdong.go`: the goroutines of `RushBuy`

`RushBuy` starts one goroutine per entry of `skuLst` and one worker, and then
waits on `endChannel`.  A run is a sequence of moves, each a step of one
goroutine; what a request to the network answers shows in a move only as the
way the step ends.  The send on the unbuffered `submitOrderSemp` completes
together with the receive of the worker; a send on `endChannel` needs room in
its buffer of `len(skuLst)` values. -/

/-- Where the goroutine of one item stands. -/
inductive TaskPC where
  /-- In `jd.skuDetail(id)`. -/
  | probing
  /-- `skuDetail` returned a nil error: in `jd.buyGood(sku)` or `jd.OrderInfo()`. -/
  | buying
  /-- Blocked in the send `submitOrderSemp <- 1`. -/
  | sending
  /-- The goroutine has returned. -/
  | finished
  deriving DecidableEq, Repr

/-- Where the goroutine of the submitOrder worker stands in its loop. -/
inductive WorkerPC where
  /-- Blocked in the receive `<-submitOrderSemp`. -/
  | receiving
  /-- The receive is done, `jd.SubmitOrder()` is not yet called. -/
  | accepted
  /-- In `jd.SubmitOrder()`. -/
  | inCall
  /-- `SubmitOrder` has returned: at the send `endChannel <- 1`. -/
  | signalling
  /-- In `time.Sleep(time.Millisecond * 1000)`. -/
  | sleeping
  deriving DecidableEq, Repr

/-- What happens in a run of `RushBuy`. -/
inductive RushEvent where
  /-- The `skuDetail` of task `t` returns, with a nil error or not. -/
  | probed (t : Nat) (ok : Bool)
  /-- `buyGood` and `OrderInfo` of task `t` have returned. -/
  | bought (t : Nat)
  /-- The send `submitOrderSemp <- 1` of task `t` completes. -/
  | sent (t : Nat)
  /-- The receive `<-submitOrderSemp` of the worker completes. -/
  | accept
  /-- The worker calls `jd.SubmitOrder()`. -/
  | submitCall
  /-- `jd.SubmitOrder()` returns. -/
  | submitReturn
  /-- The send `endChannel <- 1` of the worker completes. -/
  | token
  /-- The `time.Sleep` of the worker, of so many milliseconds, is over. -/
  | slept (ms : Nat)
  /-- A receive `<-endChannel` of the main goroutine completes. -/
  | received
  deriving DecidableEq, Repr

/-- The state of a run of `RushBuy`: the flag `jd.AutoSubmit`, one goroutine per
entry of `skuLst`, the worker, the number of values buffered in `endChannel`
(its capacity is `len(skuLst)`), the loop variable `i` of the main goroutine,
and the events so far. -/
structure RushState where
  AutoSubmit : Bool
  tasks : List TaskPC
  worker : WorkerPC
  endChannel : Nat
  i : Nat
  log : List RushEvent
  deriving DecidableEq, Repr

/-- The state `RushBuy(skuLst)` is in once it has made the channels and
started the goroutines. -/
def RushBuy (skuLst : GoMap) (AutoSubmit : Bool) : RushState where
  AutoSubmit := AutoSubmit
  tasks := skuLst.map (fun _ => TaskPC.probing)
  worker := .receiving
  endChannel := 0
  i := 0
  log := []

/-- The loop `for i := 0; i < len(skuLst); i++` is over: `RushBuy` returns. -/
def RushState.returned (s : RushState) : Bool :=
  decide (s.tasks.length ≤ s.i)

/-- One step of one goroutine, as the scheduler and the network decide. -/
inductive Move where
  /-- The `skuDetail` of task `t` returns, with a nil error or not. -/
  | probe (t : Nat) (ok : Bool)
  /-- `buyGood` and `OrderInfo` of task `t` return. -/
  | buy (t : Nat)
  /-- The send of task `t` meets the receive of the worker. -/
  | handOver (t : Nat)
  /-- The worker calls `SubmitOrder`. -/
  | call
  /-- `SubmitOrder` returns. -/
  | submitted
  /-- The worker sends on `endChannel`. -/
  | token
  /-- The sleep of the worker is over. -/
  | wake
  /-- The main goroutine receives from `endChannel`. -/
  | receive
  deriving DecidableEq, Repr

/-- The effect of a move; a move that the state does not allow (the goroutine
is elsewhere, or it is blocked on its channel) leaves the state as it is. -/
def RushState.step (s : RushState) : Move → RushState
  | .probe t ok =>
    if s.tasks[t]? = some .probing then
      { s with
        tasks := s.tasks.set t (if ok then .buying else .finished)
        log := s.log ++ [.probed t ok] }
    else s
  | .buy t =>
    if s.tasks[t]? = some .buying then
      { s with
        tasks := s.tasks.set t (if s.AutoSubmit then .sending else .finished)
        log := s.log ++ [.bought t] }
    else s
  | .handOver t =>
    if s.tasks[t]? = some .sending ∧ s.worker = .receiving then
      { s with
        tasks := s.tasks.set t .finished
        worker := .accepted
        log := s.log ++ [.sent t, .accept] }
    else s
  | .call =>
    if s.worker = .accepted then
      { s with worker := .inCall, log := s.log ++ [.submitCall] }
    else s
  | .submitted =>
    if s.worker = .inCall then
      { s with worker := .signalling, log := s.log ++ [.submitReturn] }
    else s
  | .token =>
    if s.worker = .signalling ∧ s.endChannel < s.tasks.length then
      { s with worker := .sleeping, endChannel := s.endChannel + 1, log := s.log ++ [.token] }
    else s
  | .wake =>
    if s.worker = .sleeping then
      { s with worker := .receiving, log := s.log ++ [.slept 1000] }
    else s
  | .receive =>
    if 0 < s.endChannel ∧ s.i < s.tasks.length then
      { s with endChannel := s.endChannel - 1, i := s.i + 1, log := s.log ++ [.received] }
    else s

/-- The state after a schedule of moves. -/
def RushState.run (s : RushState) (schedule : List Move) : RushState :=
  schedule.foldl RushState.step s

/-- Whether a task can still send on `submitOrderSemp`, 1 if so, else 0: it
is at the send, or it is before it and `jd.AutoSubmit` is set. -/
def TaskPC.pending (AutoSubmit : Bool) : TaskPC → Nat
  | .finished => 0
  | .sending => 1
  | _ => if AutoSubmit then 1 else 0

/-- The completion tokens the worker still owes for requests it has accepted. -/
def WorkerPC.owed : WorkerPC → Nat
  | .accepted => 1
  | .inCall => 1
  | .signalling => 1
  | _ => 0

/-- An upper bound on the number of tokens the main goroutine can ever have
received: those it has, those in the channel, those the worker owes, and one
for each task that can still send. -/
def RushState.budget (s : RushState) : Nat :=
  s.i + s.endChannel + s.worker.owed + (s.tasks.map (TaskPC.pending s.AutoSubmit)).sum

/-- The events of the worker goroutine. -/
def RushEvent.ofWorker : RushEvent → Bool
  | .accept => true
  | .submitCall => true
  | .submitReturn => true
  | .token => true
  | .slept _ => true
  | _ => false

/-- The events of one round of the loop of the worker, in order: it receives
a request, calls `SubmitOrder`, the call returns, it sends the completion
token, and it sleeps one second. -/
def workerRound : List RushEvent :=
  [.accept, .submitCall, .submitReturn, .token, .slept 1000]

/-- The events of `k` rounds of the worker. -/
def workerRounds : Nat → List RushEvent
  | 0 => []
  | k + 1 => workerRounds k ++ workerRound

/-- The events of the round the worker is in, up to where it stands. -/
def WorkerPC.progress : WorkerPC → List RushEvent
  | .receiving => []
  | .accepted => [.accept]
  | .inCall => [.accept, .submitCall]
  | .signalling => [.accept, .submitCall, .submitReturn]
  | .sleeping => [.accept, .submitCall, .submitReturn, .token]

/-- The worker has done some number of full rounds and is in the next one. -/
def RushState.Serial (s : RushState) : Prop :=
  ∃ k, s.log.filter RushEvent.ofWorker = workerRounds k ++ s.worker.progress

/-- A computation that leaves the flag `jd.AutoSubmit` as it is and does not
send on `submitOrderSemp`. -/
def Sim.Quiet {α : Type} (m : Sim α) : Prop :=
  ∀ w, (m w).world.jd.AutoSubmit = w.jd.AutoSubmit ∧
    ∃ l, (m w).world.log = w.log ++ l ∧ Event.submitSignal ∉ l

/-- A computation that leaves the flag `jd.AutoSubmit` as it is, sends on
`submitOrderSemp` at most `n` times, and sends only if the flag is set. -/
def Sim.Signals {α : Type} (n : Nat) (m : Sim α) : Prop :=
  ∀ w, (m w).world.jd.AutoSubmit = w.jd.AutoSubmit ∧
    ∃ l, (m w).world.log = w.log ++ l ∧ l.count Event.submitSignal ≤ n ∧
      (Event.submitSignal ∈ l → w.jd.AutoSubmit = true)

/-! ## More concrete worlds -/

/-- A stock payload whose entry for the item 100 has no `StockState`. -/
def statelessPayload : GoString :=
  "\x7b\"100\":\x7b\"StockStateName\":\"现货\"\x7d\x7d".toList

/-- A world whose stock endpoint answers with `statelessPayload`. -/
def statelessWorld : World where
  site :=
    { demoSite with
      newJson := fun s =>
        if s = statelessPayload then
          .ok (.obj [("100".toList, .obj [("StockStateName".toList, .str "现货".toList)])])
        else .error "invalid character".toList }
  answer := fun _ _ => .ok (plainResponse 200 statelessPayload)
  jd := demoJD
  log := []

/-- A shop whose stock payload is not JSON. -/
def garbledShop : World :=
  demoWorld (shop (.ok (plainResponse 200 [])) (fun _ => "x".toList) blankPage)

/-- A jar with the cookies `a=1` and `b=2`. -/
def demoJar : SimpleJar :=
  [{ Name := "a".toList, Value := "1".toList }, { Name := "b".toList, Value := "2".toList }]

/-- The cookies `a=3`, `c=4`, `a=5` of a reply. -/
def demoCookies : List Cookie :=
  [{ Name := "a".toList, Value := "3".toList }, { Name := "c".toList, Value := "4".toList },
   { Name := "a".toList, Value := "5".toList }]

/-! ## Theorems: the goods list -/

theorem GoMap.get_set_self (m : GoMap) (k : GoString) (v : Int) :
    (m.set k v).get k = some v := by
  induction m with
  | nil => simp [GoMap.set, GoMap.get]
  | cons p m ih =>
    obtain ⟨k1, v1⟩ := p
    by_cases h : k1 = k
    · simp [GoMap.set, GoMap.get, h]
    · simp [GoMap.set, GoMap.get, h, ih]

theorem GoMap.get_set_ne (m : GoMap) (k k2 : GoString) (v : Int) (h : k ≠ k2) :
    (m.set k v).get k2 = m.get k2 := by
  induction m with
  | nil => simp [GoMap.set, GoMap.get, h]
  | cons p m ih =>
    obtain ⟨k1, v1⟩ := p
    by_cases h1 : k1 = k
    · subst h1
      simp [GoMap.set, GoMap.get, h]
    · by_cases h2 : k1 = k2
      · subst h2
        simp [GoMap.set, GoMap.get, h1]
      · simp [GoMap.set, GoMap.get, h1, h2, ih]

theorem Split_of_not_mem (s : GoString) (sep : Char) (h : sep ∉ s) :
    Split s sep = [s] := by
  induction s with
  | nil => rfl
  | cons c cs ih =>
    have hc : c ≠ sep := fun e => h (by simp [e])
    have hcs : sep ∉ cs := fun e => h (by simp [e])
    simp [Split, hc, ih hcs]

theorem parseGood_eq_set (lst : GoMap) (good : GoString) :
    ∃ v, parseGood lst good = lst.set (goodName good) v := by
  unfold parseGood goodName
  by_cases h : (Split good ':').length = 2
  · exact ⟨(ParseInt ((Split good ':').getD 1 []) 32).1, by simp [h]⟩
  · exact ⟨1, by simp [h]⟩

theorem parseGood_of_no_colon (lst : GoMap) (good : GoString) (h : ':' ∉ good) :
    parseGood lst good = lst.set (Trim good [' ']) 1 := by
  simp [parseGood, Split_of_not_mem good ':' h]

theorem foldl_parseGood_get (l : List GoString) (lst : GoMap) (name : GoString)
    (h : ∀ good ∈ l, goodName good ≠ name) :
    (l.foldl parseGood lst).get name = lst.get name := by
  induction l generalizing lst with
  | nil => rfl
  | cons good l ih =>
    obtain ⟨v, hv⟩ := parseGood_eq_set lst good
    rw [List.foldl_cons, ih _ (fun g hg => h g (List.mem_cons_of_mem _ hg)), hv]
    exact GoMap.get_set_ne _ _ _ _ (h good (List.mem_cons_self _ _))

/-- C1: a space before a quantity changes the map `parseGoods` returns: for
`"A:2,B"` it is `{A:2, B:1}`, for `"A: 2,B"` it is `{A:0, B:1}`. -/
theorem parseGoods_space_before_quantity :
    parseGoods "A:2,B".toList = [("A".toList, 2), ("B".toList, 1)] ∧
    parseGoods "A: 2,B".toList = [("A".toList, 0), ("B".toList, 1)] ∧
    (parseGoods "A: 2,B".toList).get "A".toList ≠
      (parseGoods "A:2,B".toList).get "A".toList := by
  decide

/-- C2: an entry of the goods string that contains no `:` gets quantity 1
under its trimmed ID, provided no later entry names the same ID. -/
theorem parseGoods_quantity_omitted (goods : GoString) (i : Nat) (good : GoString)
    (hi : (goodsEntries goods)[i]? = some good)
    (hcolon : ':' ∉ good)
    (hlater : ∀ j later, i < j → (goodsEntries goods)[j]? = some later →
      goodName later ≠ Trim good [' ']) :
    (parseGoods goods).get (Trim good [' ']) = some 1 := by
  have hlen : i < (goodsEntries goods).length := by
    rcases Nat.lt_or_ge i (goodsEntries goods).length with h | h
    · exact h
    · rw [List.getElem?_eq_none h] at hi
      cases hi
  have hget : (goodsEntries goods)[i] = good := by
    rw [List.getElem?_eq_getElem hlen] at hi
    exact Option.some.inj hi
  have hsplit : goodsEntries goods =
      (goodsEntries goods).take i ++ good :: (goodsEntries goods).drop (i + 1) := by
    rw [← hget, ← List.drop_eq_getElem_cons hlen, List.take_append_drop]
  have hpost : ∀ later ∈ (goodsEntries goods).drop (i + 1),
      goodName later ≠ Trim good [' '] := by
    intro later hmem
    obtain ⟨n, hn, rfl⟩ := List.getElem_of_mem hmem
    rw [List.length_drop] at hn
    refine hlater (i + 1 + n) _ (by omega) ?_
    rw [List.getElem_drop, List.getElem?_eq_getElem (by omega)]
  unfold parseGoods
  rw [hsplit, List.foldl_append, List.foldl_cons, foldl_parseGood_get _ _ _ hpost,
    parseGood_of_no_colon _ _ hcolon]
  exact GoMap.get_set_self _ _ _

/-- C2, at the goods string `"A:2, B "` and its entry `" B "`. -/
theorem parseGoods_quantity_omitted_witness :
    (parseGoods "A:2, B ".toList).get "B".toList = some 1 :=
  parseGoods_quantity_omitted "A:2, B ".toList 1 " B ".toList (by decide) (by decide)
    (by
      intro j later hj hlater
      have hlen : (goodsEntries "A:2, B ".toList).length = 2 := by decide
      have : j < 2 := by
        rcases Nat.lt_or_ge j 2 with h | h
        · exact h
        · rw [List.getElem?_eq_none (by omega)] at hlater
          cases hlater
      omega)

/-! ## Theorems: logging in -/

@[simp] theorem sim_bind_apply {α β : Type} (m : Sim α) (f : α → Sim β) (w : World) :
    (m >>= f) w = match m w with
      | .ok a w1 => f a w1
      | .panic w1 => .panic w1
      | .running w1 => .running w1 := rfl

@[simp] theorem sim_pure_apply {α : Type} (a : α) (w : World) :
    (pure a : Sim α) w = .ok a w := rfl

theorem still_pure {α : Type} (a : α) : Sim.Still (pure a : Sim α) :=
  fun _ => ⟨rfl, by simp⟩

theorem still_panic {α : Type} : Sim.Still (Sim.panic : Sim α) :=
  fun _ => ⟨rfl, by simp [Sim.panic]⟩

theorem still_getSite : Sim.Still getSite :=
  fun _ => ⟨rfl, by simp [getSite]⟩

theorem still_getJD : Sim.Still getJD :=
  fun _ => ⟨rfl, by simp [getJD]⟩

theorem still_ite {α : Type} {c : Prop} [Decidable c] {m1 m2 : Sim α}
    (h1 : Sim.Still m1) (h2 : Sim.Still m2) : Sim.Still (if c then m1 else m2) := by
  split
  · exact h1
  · exact h2

theorem bind_still {α β : Type} (m : Sim α) {f : α → Sim β} (hf : ∀ a, Sim.Still (f a))
    (w : World) :
    ((m >>= f) w).world = (m w).world ∧
    ((∀ w1, m w ≠ .running w1) → ∀ w1, (m >>= f) w ≠ .running w1) := by
  rw [sim_bind_apply]
  cases hmw : m w with
  | ok a w1 => exact ⟨(hf a w1).1, fun _ => (hf a w1).2⟩
  | panic w1 => exact ⟨rfl, fun _ => by simp⟩
  | running w1 => exact ⟨rfl, fun h => absurd rfl (h w1)⟩

theorem still_bind {α β : Type} {m : Sim α} {f : α → Sim β}
    (hm : Sim.Still m) (hf : ∀ a, Sim.Still (f a)) : Sim.Still (m >>= f) := by
  intro w
  obtain ⟨h1, h2⟩ := bind_still m hf w
  exact ⟨h1.trans (hm w).1, h2 (hm w).2⟩

theorem still_readAll (resp : Response) : Sim.Still (readAll resp) := by
  unfold readAll
  refine still_bind still_getSite (fun site => ?_)
  refine still_ite ?_ (still_pure _)
  split
  · exact still_panic
  · exact still_pure _

theorem later_refl (w : World) : Later w w :=
  ⟨rfl, fun _ => 0, fun _ _ => rfl⟩

theorem later_trans {w w1 w2 : World} (h1 : Later w w1) (h2 : Later w1 w2) : Later w w2 := by
  obtain ⟨hs1, k1, hk1⟩ := h1
  obtain ⟨hs2, k2, hk2⟩ := h2
  refine ⟨hs2.trans hs1, fun r => k2 r + k1 r, fun r n => ?_⟩
  rw [hk2, hk1, Nat.add_assoc]

theorem mono_pure {α : Type} (a : α) : Sim.Mono (pure a : Sim α) :=
  fun w => later_refl w

theorem mono_panic {α : Type} : Sim.Mono (Sim.panic : Sim α) :=
  fun w => later_refl w

theorem mono_running {α : Type} : Sim.Mono (Sim.running : Sim α) :=
  fun w => later_refl w

theorem mono_bind {α β : Type} {m : Sim α} {f : α → Sim β}
    (hm : Sim.Mono m) (hf : ∀ a, Sim.Mono (f a)) : Sim.Mono (m >>= f) := by
  intro w
  have h := hm w
  rw [sim_bind_apply]
  cases hmw : m w with
  | ok a w1 =>
    rw [hmw] at h
    exact later_trans h (hf a w1)
  | panic w1 =>
    rw [hmw] at h
    exact h
  | running w1 =>
    rw [hmw] at h
    exact h

theorem mono_emit (e : Event) : Sim.Mono (emit e) :=
  fun _ => ⟨rfl, fun _ => 0, fun _ _ => rfl⟩

theorem mono_getSite : Sim.Mono getSite :=
  fun w => later_refl w

theorem mono_getJD : Sim.Mono getJD :=
  fun w => later_refl w

theorem mono_modifyJD (f : JingDong → JingDong) : Sim.Mono (modifyJD f) :=
  fun _ => ⟨rfl, fun _ => 0, fun _ _ => rfl⟩

theorem mono_clientDo (r : Request) : Sim.Mono (clientDo r) := by
  intro w
  have key : ∀ r1 n, (if r1 = r then w.answer r1 (n + 1) else w.answer r1 n) =
      w.answer r1 (n + (if r1 = r then 1 else 0)) := by
    intro r1 n
    split <;> rfl
  unfold clientDo
  cases w.answer r 0 with
  | error e => exact ⟨rfl, fun r1 => if r1 = r then 1 else 0, key⟩
  | ok resp => exact ⟨rfl, fun r1 => if r1 = r then 1 else 0, key⟩

theorem mono_readAll (resp : Response) : Sim.Mono (readAll resp) := by
  unfold readAll
  refine mono_bind mono_getSite (fun site => ?_)
  split
  · split
    · exact mono_panic
    · exact mono_pure _
  · exact mono_pure _

theorem mono_responseData (resp : Response) : Sim.Mono (responseData resp) := by
  unfold responseData
  refine mono_bind (mono_readAll resp) (fun a => ?_)
  obtain ⟨data, err⟩ := a
  cases err <;> exact mono_pure _

theorem mono_validateLogin : Sim.Mono validateLogin := by
  unfold validateLogin
  refine mono_bind (mono_clientDo _) (fun a => ?_)
  split
  · exact mono_pure _
  · split <;> exact mono_pure _

theorem mono_loginPage : Sim.Mono loginPage := by
  unfold loginPage
  refine mono_bind (mono_clientDo _) (fun a => ?_)
  split <;> exact mono_pure _

theorem mono_runCommand (strCmd : GoString) : Sim.Mono (runCommand strCmd) := by
  unfold runCommand
  refine mono_bind mono_getSite (fun site => ?_)
  refine mono_bind (mono_emit _) (fun _ => ?_)
  split
  · split
    · exact mono_bind (mono_emit _) (fun _ => mono_pure _)
    · exact mono_pure _
  · exact mono_pure _

theorem mono_loadQRCode : Sim.Mono loadQRCode := by
  unfold loadQRCode
  refine mono_bind (mono_clientDo _) (fun a => ?_)
  split
  · exact mono_pure _
  · refine mono_bind mono_getSite (fun site => ?_)
    refine mono_bind ?_ (fun name => ?_)
    · split
      · exact mono_pure _
      · exact mono_panic
      · exact mono_pure _
    · refine mono_bind (mono_emit _) (fun _ => ?_)
      split <;> exact mono_pure _

theorem mono_scanLoop (req : Request) (retry : Nat) : Sim.Mono (scanLoop req retry) := by
  induction retry with
  | zero => exact mono_pure _
  | succ retry ih =>
    unfold scanLoop
    refine mono_bind (mono_clientDo _) (fun a => ?_)
    split
    · exact mono_pure _
    · split
      · refine mono_bind (mono_responseData _) (fun respMsg => ?_)
        dsimp only
        split
        · exact mono_panic
        · refine mono_bind mono_getSite (fun site => ?_)
          split
          · exact mono_pure _
          · split
            · exact mono_modifyJD _
            · exact mono_bind (mono_emit _) (fun _ => ih)
      · exact ih

theorem mono_waitForScan : Sim.Mono waitForScan := by
  unfold waitForScan
  refine mono_bind mono_getJD (fun jd0 => ?_)
  refine mono_bind (mono_scanLoop _ _) (fun _ => ?_)
  refine mono_bind mono_getJD (fun jd => ?_)
  split <;> exact mono_pure _

theorem mono_later {α : Type} {m : Sim α} (hm : Sim.Mono m) {w w1 : World} {a : α}
    (h : m w = .ok a w1) : Later w w1 := by
  have := hm w
  rw [h] at this
  exact this

theorem noMarker_later {w w1 : World} (hm : NoMarker w) (h : Later w w1) : NoMarker w1 := by
  obtain ⟨_, k, hk⟩ := h
  intro t n
  rw [hk]
  exact hm t _

theorem total_pure {α : Type} (a : α) : Sim.Total (pure a : Sim α) :=
  fun w => ⟨a, w, rfl⟩

theorem total_emit (e : Event) : Sim.Total (emit e) :=
  fun _ => ⟨(), _, rfl⟩

theorem total_getSite : Sim.Total getSite :=
  fun w => ⟨w.site, w, rfl⟩

theorem total_bind {α β : Type} {m : Sim α} {f : α → Sim β}
    (hm : Sim.Total m) (hf : ∀ a, Sim.Total (f a)) : Sim.Total (m >>= f) := by
  intro w
  obtain ⟨a, w1, h⟩ := hm w
  rw [sim_bind_apply, h]
  exact hf a w1

theorem total_runCommand (strCmd : GoString) : Sim.Total (runCommand strCmd) := by
  unfold runCommand
  refine total_bind total_getSite (fun site => ?_)
  refine total_bind (total_emit _) (fun _ => ?_)
  split
  · split
    · exact total_bind (total_emit _) (fun _ => total_pure _)
    · exact total_pure _
  · exact total_pure _

theorem validateQRToken_of_no_marker (w : World) (resp : Response)
    (hresp : w.answer (.ticketValidation w.jd.token) 0 = .ok resp)
    (hp3p : resp.HeaderGet "P3P".toList = []) :
    ∃ w1, validateQRToken w = .ok (some "login failed".toList) w1 := by
  unfold validateQRToken
  simp only [sim_bind_apply, getJD, getSite, clientDo, hresp, hp3p, if_true]
  cases w.site.decodeURL resp.Body resp.ReadErr with
  | error e => exact ⟨_, rfl⟩
  | ok resURL =>
    by_cases hne : resURL = []
    · simp only [hne, ne_eq, not_true_eq_false, if_false, sim_bind_apply, sim_pure_apply]
      exact ⟨_, rfl⟩
    · simp only [hne, ne_eq, not_false_eq_true, if_true, sim_bind_apply]
      obtain ⟨r, w1, h⟩ := total_runCommand
        (if "https:".toList.isPrefixOf resURL then resURL else "https:".toList ++ resURL)
        { site := w.site,
          answer := fun r1 n =>
            if r1 = Request.ticketValidation w.jd.token then w.answer r1 (n + 1)
            else w.answer r1 n,
          jd := { w.jd with jar := w.jd.jar.SetCookies resp.SetCookie },
          log := w.log ++ [Event.request (Request.ticketValidation w.jd.token)] }
      simp only [h, sim_pure_apply]
      exact ⟨_, rfl⟩

theorem bind_ok {α β : Type} {m : Sim α} {f : α → Sim β} {w w2 : World} {b : β}
    (h : (m >>= f) w = .ok b w2) : ∃ a w1, m w = .ok a w1 ∧ f a w1 = .ok b w2 := by
  rw [sim_bind_apply] at h
  cases hm : m w with
  | ok a w1 =>
    rw [hm] at h
    exact ⟨a, w1, rfl, h⟩
  | panic w1 => rw [hm] at h; cases h
  | running w1 => rw [hm] at h; cases h

theorem pure_ok {α : Type} {a b : α} {w w1 : World} (h : (pure a : Sim α) w = .ok b w1) :
    a = b ∧ w = w1 := by
  rw [sim_pure_apply] at h
  cases h
  exact ⟨rfl, rfl⟩

theorem Login_ok_none (w w9 : World) (h : Login w = .ok none w9) :
    (∃ w1, validateLogin w = .ok true w1) ∨
    ∃ w7, Later w w7 ∧ validateQRToken w7 = .ok none w9 := by
  unfold Login at h
  obtain ⟨b, w1, h1, h⟩ := bind_ok h
  cases b with
  | true => exact Or.inl ⟨w1, h1⟩
  | false =>
    right
    simp only [Bool.false_eq_true, if_false] at h
    obtain ⟨_, w2, h2, h⟩ := bind_ok h
    obtain ⟨_, w3, h3, h⟩ := bind_ok h
    obtain ⟨r4, w4, h4, h⟩ := bind_ok h
    cases r4 with
    | some err => exact absurd (pure_ok h).1 (by simp)
    | none =>
      obtain ⟨r5, w5, h5, h⟩ := bind_ok h
      obtain ⟨qrImg, e5⟩ := r5
      cases e5 with
      | some err => exact absurd (pure_ok h).1 (by simp)
      | none =>
        obtain ⟨r6, w6, h6, h⟩ := bind_ok h
        cases r6 with
        | some err => exact absurd (pure_ok h).1 (by simp)
        | none =>
          obtain ⟨r7, w7, h7, h⟩ := bind_ok h
          cases r7 with
          | some err => exact absurd (pure_ok h).1 (by simp)
          | none =>
            obtain ⟨r8, w8, h8, h⟩ := bind_ok h
            cases r8 with
            | some err => exact absurd (pure_ok h).1 (by simp)
            | none =>
              obtain ⟨_, hw⟩ := pure_ok h
              subst hw
              refine ⟨w7, ?_, h8⟩
              have l1 := mono_later mono_validateLogin h1
              have l2 := mono_later (mono_emit _) h2
              have l3 := mono_later (mono_modifyJD _) h3
              have l4 := mono_later mono_loginPage h4
              have l5 := mono_later mono_loadQRCode h5
              have l6 := mono_later (mono_runCommand _) h6
              have l7 := mono_later mono_waitForScan h7
              exact later_trans l1 (later_trans l2 (later_trans l3 (later_trans l4 (later_trans l5 (later_trans l6 l7)))))

/-- C10: in a world where every response to the token validation lacks the
`P3P` header, whatever its body and whether or not `cmd.Start` succeeds,
`validateQRToken` returns the error `login failed`, and `Login`, once the
validity check has failed, does not return nil. -/
theorem Login_fails_without_marker (w : World) (hm : NoMarker w) :
    (∃ w1, validateQRToken w = .ok (some "login failed".toList) w1) ∧
    ((validateLogin w).value? = some false → ∀ w9, Login w ≠ .ok none w9) := by
  constructor
  · obtain ⟨resp, hresp, hp3p⟩ := hm w.jd.token 0
    exact validateQRToken_of_no_marker w resp hresp hp3p
  · intro hv w9 h
    rcases Login_ok_none w w9 h with ⟨w1, h1⟩ | ⟨w7, hl, h7⟩
    · rw [h1] at hv
      simp [Res.value?] at hv
    · obtain ⟨resp, hresp, hp3p⟩ := noMarker_later hm hl w7.jd.token 0
      obtain ⟨w8, h8⟩ := validateQRToken_of_no_marker w7 resp hresp hp3p
      rw [h8] at h7
      simp at h7

/-- C7: when the validity check answers HTTP 200, `Login` returns nil and the
request of the validity check is the only thing it does: the jar is not
cleared, no handshake request is sent and no command is started. -/
theorem Login_short_circuit (w : World) (resp : Response)
    (hresp : w.answer .verifyRight 0 = .ok resp) (h200 : resp.StatusCode = 200) :
    ∃ w1, Login w = .ok none w1 ∧
      w1.log = w.log ++ [.request .verifyRight] ∧
      w1.jd.token = w.jd.token ∧
      w1.jd.jar = w.jd.jar.SetCookies resp.SetCookie := by
  simp [Login, validateLogin, clientDo, hresp, h200]

theorem still_responseData (resp : Response) : Sim.Still (responseData resp) := by
  unfold responseData
  refine still_bind (still_readAll resp) (fun a => ?_)
  obtain ⟨data, err⟩ := a
  cases err <;> exact still_pure _

theorem polls_of_still {α : Type} (req : Request) {m : Sim α} (hm : Sim.Still m) :
    Sim.PollsAtMost req 0 m :=
  fun w => ⟨[], by rw [(hm w).1, List.append_nil], by simp, by simp⟩

theorem polls_mono {α : Type} {req : Request} {n k : Nat} {m : Sim α}
    (hm : Sim.PollsAtMost req n m) (h : n ≤ k) : Sim.PollsAtMost req k m := by
  intro w
  obtain ⟨l, h1, h2, h3⟩ := hm w
  exact ⟨l, h1, Nat.le_trans h2 h, h3⟩

theorem polls_bind {α β : Type} {req : Request} {n k : Nat} {m : Sim α} {f : α → Sim β}
    (hm : Sim.PollsAtMost req n m) (hf : ∀ a, Sim.PollsAtMost req k (f a)) :
    Sim.PollsAtMost req (n + k) (m >>= f) := by
  intro w
  obtain ⟨l, hl, hc, hp⟩ := hm w
  rw [sim_bind_apply]
  cases hmw : m w with
  | ok a w1 =>
    rw [hmw] at hl
    simp only [Res.world] at hl
    obtain ⟨l2, hl2, hc2, hp2⟩ := hf a w1
    refine ⟨l ++ l2, by rw [hl2, hl, List.append_assoc], ?_, ?_⟩
    · rw [List.count_append]
      omega
    · intro e he
      rcases List.mem_append.mp he with h | h
      · exact hp e h
      · exact hp2 e h
  | panic w1 =>
    rw [hmw] at hl
    exact ⟨l, hl, by omega, hp⟩
  | running w1 =>
    rw [hmw] at hl
    exact ⟨l, hl, by omega, hp⟩

theorem polls_clientDo (req : Request) : Sim.PollsAtMost req 1 (clientDo req) := by
  intro w
  refine ⟨[.request req], ?_, by simp, by simp⟩
  unfold clientDo
  cases w.answer req 0 <;> rfl

theorem polls_bind_still {α β : Type} {req : Request} {n : Nat} {m : Sim α} {f : α → Sim β}
    (hm : Sim.Still m) (hf : ∀ a, Sim.PollsAtMost req n (f a)) :
    Sim.PollsAtMost req n (m >>= f) :=
  polls_mono (polls_bind (polls_of_still req hm) hf) (by omega)

theorem polls_scanLoop (req : Request) (retry : Nat) :
    Sim.PollsAtMost req retry (scanLoop req retry) := by
  induction retry with
  | zero => exact polls_of_still req (still_pure _)
  | succ retry ih =>
    unfold scanLoop
    refine polls_mono (polls_bind (polls_clientDo req) (fun a => ?_)) (Nat.add_comm 1 retry).le
    split
    · exact polls_mono (polls_of_still req (still_pure _)) (Nat.zero_le _)
    · split
      · refine polls_bind_still (still_responseData _) (fun respMsg => ?_)
        dsimp only
        split
        · exact polls_mono (polls_of_still req still_panic) (Nat.zero_le _)
        · refine polls_bind_still still_getSite (fun site => ?_)
          split
          · exact polls_mono (polls_of_still req (still_pure _)) (Nat.zero_le _)
          · split
            · intro w
              exact ⟨[], by simp [modifyJD, Res.world], by simp, by simp⟩
            · refine polls_mono (polls_bind (n := 0) ?_ (fun _ => ih)) (by omega)
              intro w
              exact ⟨[.sleep 3000], rfl, by simp, by simp⟩
      · exact ih

/-- The bound of `waitForScan`: whatever the answers, it sends at most 50
confirmation polls, and besides them it only sleeps. -/
theorem waitForScan_polls_at_most_50 (w : World) :
    ∃ wlfstk l, (waitForScan w).world.log = w.log ++ l ∧
      l.count (.request (.qrCheck wlfstk)) ≤ 50 ∧
      ∀ e ∈ l, e = .request (.qrCheck wlfstk) ∨ e = .sleep 3000 := by
  have key : ∀ wlfstk, Sim.PollsAtMost (.qrCheck wlfstk) 50 (do
      scanLoop (.qrCheck wlfstk) 50
      let jd ← getJD
      if jd.token = [] then pure (some "未检测到QR扫码结果".toList)
      else pure none : Sim (Option GoError)) := by
    intro wlfstk
    refine polls_mono (polls_bind (k := 0) (polls_scanLoop _ 50) (fun _ => ?_)) (Nat.le_refl 50)
    exact polls_of_still _ (still_bind still_getJD
      (fun jd => still_ite (still_pure _) (still_pure _)))
  unfold waitForScan
  rw [sim_bind_apply]
  simp only [getJD]
  exact ⟨_, key _ w⟩

/-- C7, in a world where every request is answered with 200. -/
theorem Login_short_circuit_witness :
    ∃ w1, Login (demoWorld validSession) = .ok none w1 ∧
      w1.log = (demoWorld validSession).log ++ [.request .verifyRight] ∧
      w1.jd.token = (demoWorld validSession).jd.token ∧
      w1.jd.jar = (demoWorld validSession).jd.jar.SetCookies (plainResponse 200 []).SetCookie :=
  Login_short_circuit (demoWorld validSession) (plainResponse 200 []) rfl rfl

/-- C10, in a world where the handshake reaches the token validation and the
validation answer has no `P3P` header. -/
theorem Login_fails_without_marker_witness :
    NoMarker (demoWorld (handshake verifyDemand)) ∧
    (∃ w1, validateQRToken (demoWorld (handshake verifyDemand)) =
      .ok (some "login failed".toList) w1) ∧
    ∀ w9, Login (demoWorld (handshake verifyDemand)) ≠ .ok none w9 :=
  ⟨fun _ _ => ⟨_, rfl, rfl⟩,
   (Login_fails_without_marker (demoWorld (handshake verifyDemand))
      (fun _ _ => ⟨_, rfl, rfl⟩)).1,
   (Login_fails_without_marker (demoWorld (handshake verifyDemand))
      (fun _ _ => ⟨_, rfl, rfl⟩)).2 (by decide!)⟩

/-- C8: a token left by an earlier login makes `waitForScan` return nil
although no poll of this call reported confirmation.  The first `Login` is
confirmed at its first poll (ticket `T`) and fails at the token validation;
in the world it leaves, `waitForScan` sends one poll, which times out, and
returns nil. -/
theorem waitForScan_nil_on_stale_token :
    (Login (demoWorld (handshake verifyDemand))).value? = some (some "login failed".toList) ∧
    (Login (demoWorld (handshake verifyDemand))).world.jd.token = "T".toList ∧
    (waitForScan (Login (demoWorld (handshake verifyDemand))).world).value? = some none ∧
    (waitForScan (Login (demoWorld (handshake verifyDemand))).world).world.log =
      (Login (demoWorld (handshake verifyDemand))).world.log ++ [.request (.qrCheck [])] ∧
    ((Login (demoWorld (handshake verifyDemand))).world.answer (.qrCheck []) 0).toBool = false := by
  decide!

/-- C9: when the request of the token validation fails with a transport error,
`Login` returns nil: the validity check is redirected, the login page and the
QR image are fetched, the first poll reports the scan, the validation request
times out, and `Login` reports success. -/
theorem Login_nil_on_validation_transport_error :
    ((demoWorld (handshake (.error "timeout".toList))).answer
      (.ticketValidation "T".toList) 0).toBool = false ∧
    (Login (demoWorld (handshake (.error "timeout".toList)))).value? = some none ∧
    (Login (demoWorld (handshake (.error "timeout".toList)))).world.log =
      [.request .verifyRight, .jarClean, .request .loginPage, .request .qrShow,
       .saveFile "/tmp/jd.qr.png".toList, .start "eog".toList "/tmp/jd.qr.png".toList,
       .request (.qrCheck []), .request (.ticketValidation "T".toList)] := by
  decide!

/-! ## Theorems: probing and buying -/

theorem nopoll_pure {α : Type} (a : α) : Sim.NoPoll (pure a : Sim α) :=
  fun w => ⟨⟨[], by simp [Res.world], by simp⟩, by simp⟩

theorem nopoll_panic {α : Type} : Sim.NoPoll (Sim.panic : Sim α) :=
  fun w => ⟨⟨[], by simp [Res.world, Sim.panic], by simp⟩, by simp [Sim.panic]⟩

theorem nopoll_getSite : Sim.NoPoll getSite :=
  fun w => ⟨⟨[], by simp [Res.world, getSite], by simp⟩, by simp [getSite]⟩

theorem nopoll_getJD : Sim.NoPoll getJD :=
  fun w => ⟨⟨[], by simp [Res.world, getJD], by simp⟩, by simp [getJD]⟩

theorem nopoll_ite {α : Type} {c : Prop} [Decidable c] {m1 m2 : Sim α}
    (h1 : Sim.NoPoll m1) (h2 : Sim.NoPoll m2) : Sim.NoPoll (if c then m1 else m2) := by
  split
  · exact h1
  · exact h2

theorem nopoll_bind {α β : Type} {m : Sim α} {f : α → Sim β}
    (hm : Sim.NoPoll m) (hf : ∀ a, Sim.NoPoll (f a)) : Sim.NoPoll (m >>= f) := by
  intro w
  obtain ⟨⟨l, hl, hp⟩, hr⟩ := hm w
  rw [sim_bind_apply]
  cases hmw : m w with
  | ok a w1 =>
    rw [hmw] at hl
    obtain ⟨⟨l2, hl2, hp2⟩, hr2⟩ := hf a w1
    refine ⟨⟨l ++ l2, ?_, ?_⟩, hr2⟩
    · simp only [Res.world] at hl
      rw [hl2, hl, List.append_assoc]
    · intro e he
      rcases List.mem_append.mp he with h | h
      · exact hp e h
      · exact hp2 e h
  | panic w1 =>
    rw [hmw] at hl
    exact ⟨⟨l, hl, hp⟩, by simp⟩
  | running w1 => exact absurd hmw (hr w1)

theorem clientDo_world (r : Request) (w : World) :
    (clientDo r w).world.site = w.site ∧
    (clientDo r w).world.log = w.log ++ [.request r] ∧
    (clientDo r w).world.jd.Period = w.jd.Period ∧
    (clientDo r w).world.jd.ShipArea = w.jd.ShipArea ∧
    (clientDo r w).world.jd.AutoRush = w.jd.AutoRush ∧
    (clientDo r w).world.answer =
      fun r1 n => if r1 = r then w.answer r1 (n + 1) else w.answer r1 n := by
  unfold clientDo
  cases w.answer r 0 <;> simp [Res.world]

theorem clientDo_returns (r : Request) (w : World) :
    ∃ a, clientDo r w = .ok a (clientDo r w).world := by
  unfold clientDo
  cases w.answer r 0 with
  | error e => exact ⟨_, rfl⟩
  | ok resp => exact ⟨_, rfl⟩

theorem nopoll_clientDo (r : Request) (hr : (Event.request r).isPoll = false) :
    Sim.NoPoll (clientDo r) := by
  intro w
  obtain ⟨a, ha⟩ := clientDo_returns r w
  refine ⟨⟨[.request r], (clientDo_world r w).2.1, ?_⟩, ?_⟩
  · intro e he
    rw [List.mem_singleton.mp he]
    exact hr
  · intro w1 h
    rw [ha] at h
    cases h

theorem nopoll_readAll (resp : Response) : Sim.NoPoll (readAll resp) := by
  unfold readAll
  refine nopoll_bind nopoll_getSite (fun site => ?_)
  split
  · split
    · exact nopoll_panic
    · exact nopoll_pure _
  · exact nopoll_pure _

theorem nopoll_getResponse (r : Request) (hr : (Event.request r).isPoll = false) :
    Sim.NoPoll (getResponse r) := by
  unfold getResponse
  refine nopoll_bind nopoll_getSite (fun site => ?_)
  dsimp only
  split
  · exact nopoll_pure _
  · refine nopoll_bind (nopoll_clientDo r hr) (fun a => ?_)
    split
    · exact nopoll_pure _
    · exact nopoll_readAll _

theorem nopoll_changeCount (ID : GoString) (count : Int) :
    Sim.NoPoll (changeCount ID count) := by
  unfold changeCount
  refine nopoll_bind nopoll_getJD (fun jd => ?_)
  refine nopoll_bind (nopoll_getResponse _ rfl) (fun a => ?_)
  split
  · exact nopoll_pure _
  · refine nopoll_bind nopoll_getSite (fun site => ?_)
    split
    · exact nopoll_panic
    · exact nopoll_pure _

theorem nopoll_addToCart (sku : SKUInfo) : Sim.NoPoll (addToCart sku) := by
  unfold addToCart
  refine nopoll_bind nopoll_getSite (fun site => ?_)
  dsimp only
  split
  · exact nopoll_pure _
  · refine nopoll_bind (nopoll_getResponse _ rfl) (fun a => ?_)
    split
    · exact nopoll_pure _
    · split
      · exact nopoll_pure _
      · refine nopoll_ite ?_ (nopoll_pure _)
        refine nopoll_bind (nopoll_ite (nopoll_changeCount _ _) (nopoll_pure _)) (fun a => ?_)
        obtain ⟨count, err⟩ := a
        exact nopoll_ite (nopoll_pure _) (nopoll_pure _)

theorem stockState_congr (ID : GoString) (w w2 : World) (hs : w2.site = w.site)
    (ha : w2.jd.ShipArea = w.jd.ShipArea)
    (h0 : w2.answer (.stocks ID w.jd.ShipArea) 0 = w.answer (.stocks ID w.jd.ShipArea) 0) :
    (stockState ID w2).value? = (stockState ID w).value? := by
  unfold stockState getResponse
  simp only [sim_bind_apply, getJD, getSite, Request.rawURL, clientDo, ha, hs, h0]
  cases w.answer (.stocks ID w.jd.ShipArea) 0 with
  | error e => rfl
  | ok resp =>
    simp only [readAll, sim_bind_apply, getSite, hs]
    have tail : ∀ (a : GoString × Option GoError) (w1 w3 : World), w1.site = w3.site →
        Res.value? ((match a with
          | (_, some err) => pure ([], [], some err)
          | (data, none) => do
            let site ← getSite
            match site.newJson (site.gbk data) with
              | Except.error err => pure ([], [], some err)
              | Except.ok js =>
                match js.CheckGet ID with
                | some sku =>
                  pure (Itoa (sku.Get "StockState".toList).asInt.1,
                    (sku.Get "StockStateName".toList).asString.1, none)
                | none => pure ([], [], some "无效响应数据".toList) :
            Sim (GoString × GoString × Option GoError)) w1) =
        Res.value? ((match a with
          | (_, some err) => pure ([], [], some err)
          | (data, none) => do
            let site ← getSite
            match site.newJson (site.gbk data) with
              | Except.error err => pure ([], [], some err)
              | Except.ok js =>
                match js.CheckGet ID with
                | some sku =>
                  pure (Itoa (sku.Get "StockState".toList).asInt.1,
                    (sku.Get "StockStateName".toList).asString.1, none)
                | none => pure ([], [], some "无效响应数据".toList) :
            Sim (GoString × GoString × Option GoError)) w3) := by
      intro a w1 w3 hsite
      obtain ⟨data, err⟩ := a
      cases err with
      | some e => rfl
      | none =>
        simp only [sim_bind_apply, getSite, hsite]
        cases w3.site.newJson (w3.site.gbk data) with
        | error e => rfl
        | ok js =>
          dsimp only
          cases js.CheckGet ID <;> rfl
    by_cases hg : resp.HeaderGet "Content-Encoding".toList = "gzip".toList
    · simp only [hg, if_true]
      cases w.site.gunzip resp.Body resp.ReadErr with
      | none => rfl
      | some r => exact tail r _ _ rfl
    · simp only [hg, if_false]
      exact tail _ _ _ rfl

theorem value?_eq_some {α : Type} {r : Res α} {a : α} (h : r.value? = some a) :
    r = .ok a r.world := by
  cases r with
  | ok b w =>
    simp only [Res.value?, Option.some.injEq] at h
    rw [h]
    rfl
  | panic w => cases h
  | running w => cases h

theorem stockState_world (ID : GoString) (w : World) :
    (stockState ID w).world = (clientDo (.stocks ID w.jd.ShipArea) w).world := by
  unfold stockState
  simp only [sim_bind_apply, getJD]
  have h1 : ∀ a : GoString × Option GoError, Sim.Still (match a with
      | (_, some err) => pure ([], [], some err)
      | (data, none) => do
        let site ← getSite
        let decString := site.gbk data
        match site.newJson decString with
          | Except.error err => pure ([], [], some err)
          | Except.ok js =>
            match js.CheckGet ID with
            | some sku =>
              let skuState := (sku.Get "StockState".toList).asInt.1
              let skuStateName := (sku.Get "StockStateName".toList).asString.1
              pure (Itoa skuState, skuStateName, none)
            | none => pure ([], [], some "无效响应数据".toList) :
        Sim (GoString × GoString × Option GoError)) := by
    intro a
    split
    · exact still_pure _
    · refine still_bind still_getSite (fun site => ?_)
      dsimp only
      split
      · exact still_pure _
      · split <;> exact still_pure _
  have h2 := (bind_still (getResponse (.stocks ID w.jd.ShipArea)) h1 w).1
  rw [sim_bind_apply] at h2
  rw [h2]
  unfold getResponse
  simp only [sim_bind_apply, getSite]
  have h3 : ∀ a : Except GoError Response, Sim.Still (match a with
      | .error err => pure ([], some err)
      | .ok resp => readAll resp : Sim (GoString × Option GoError)) := by
    intro a
    split
    · exact still_pure _
    · exact still_readAll _
  have h4 := (bind_still (clientDo (.stocks ID w.jd.ShipArea)) h3 w).1
  rw [sim_bind_apply] at h4
  exact h4

theorem probeState_succ (w wb : World) (sku sku1 : SKUInfo)
    (hsite : wb.site = w.site) (harea : wb.jd.ShipArea = w.jd.ShipArea)
    (hid : sku1.ID = sku.ID)
    (hans : ∀ n, wb.answer (.stocks sku.ID w.jd.ShipArea) n =
      w.answer (.stocks sku.ID w.jd.ShipArea) (n + 1))
    (hstate : probeState w sku 1 = some sku1.State) :
    ∀ i, probeState wb sku1 i = probeState w sku (i + 1) := by
  intro i
  cases i with
  | zero => rw [hstate]; rfl
  | succ i =>
    have hc : (stockState sku.ID (wb.skip (.stocks sku.ID w.jd.ShipArea) i)).value? =
        (stockState sku.ID (w.skip (.stocks sku.ID w.jd.ShipArea) (i + 1))).value? := by
      apply stockState_congr
      · exact hsite
      · exact harea
      · simp only [World.skip, if_true, Nat.zero_add]
        exact hans i
    simp only [probeState, hid, harea, hc]

theorem rushLoop_spec (k : Nat) : ∀ (fuel : Nat) (w : World) (sku : SKUInfo),
    w.jd.AutoRush = true → k ≤ fuel →
    (∀ i, i < k → probeState w sku i = some "34".toList) →
    (∃ s, probeState w sku k = some s ∧ s ≠ "34".toList) →
    ∃ w1 sku1, rushLoop fuel sku w = .ok (sku1, none) w1 ∧
      w1.log = w.log ++ pollCycles w.jd.Period (.stocks sku.ID w.jd.ShipArea) k ∧
      w1.site = w.site ∧ sku1.ID = sku.ID ∧ sku1.Link = sku.Link ∧
      sku1.Count = sku.Count ∧ sku1.State ≠ "34".toList := by
  induction k with
  | zero =>
    intro fuel w sku _ _ _ hk
    obtain ⟨s, hs, hne⟩ := hk
    simp only [probeState, Option.some.injEq] at hs
    subst hs
    refine ⟨w, sku, ?_, by simp [pollCycles], rfl, rfl, rfl, rfl, hne⟩
    cases fuel <;>
      simp only [rushLoop, sim_bind_apply, getJD, hne, false_and, if_false, sim_pure_apply]
  | succ k ih =>
    intro fuel w sku hrush hfuel h34 hk
    obtain ⟨fuel, rfl⟩ : ∃ f, fuel = f + 1 := ⟨fuel - 1, by omega⟩
    have h0 : sku.State = "34".toList := by
      have := h34 0 (by omega)
      simp only [probeState, Option.some.injEq] at this
      exact this
    have hp1 : ∃ s1, probeState w sku 1 = some s1 := by
      cases k with
      | zero => exact ⟨_, hk.choose_spec.1⟩
      | succ k => exact ⟨_, h34 1 (by omega)⟩
    obtain ⟨s1, hs1⟩ := hp1
    let r : Request := .stocks sku.ID w.jd.ShipArea
    let wa : World := { w with log := w.log ++ [.sleep w.jd.Period] }
    -- the probe of this round returns the state `s1`
    have hv : ∃ nm, (stockState sku.ID (w.skip r 0)).value? = some (s1, nm, none) := by
      have h := hs1
      simp only [probeState] at h
      split at h
      · rename_i state nm heq
        simp only [Option.some.injEq] at h
        subst h
        exact ⟨nm, heq⟩
      · cases h
    obtain ⟨nm, hv⟩ := hv
    have hc : (stockState sku.ID wa).value? = (stockState sku.ID (w.skip r 0)).value? := by
      apply stockState_congr
      · rfl
      · rfl
      · simp [World.skip, wa]
    have hrun := value?_eq_some (hc.trans hv)
    have hwb : (stockState sku.ID wa).world = (clientDo r wa).world := stockState_world sku.ID wa
    obtain ⟨hb1, hb2, hb3, hb4, hb5, hb6⟩ := clientDo_world r wa
    rw [hwb] at hrun
    -- the rest of the loop
    have hs1' : probeState w sku 1 =
        some ({ sku with State := s1, StateName := nm } : SKUInfo).State := hs1
    have hshift := probeState_succ w (clientDo r wa).world sku
      { sku with State := s1, StateName := nm } hb1 hb4 rfl
      (by intro n; rw [hb6]; simp [r, wa]) hs1'
    obtain ⟨w1, sku1, hloop, hlog, hsite, hid, hlink, hcount, hstate⟩ :=
      ih fuel (clientDo r wa).world { sku with State := s1, StateName := nm }
        (hb5.trans hrush) (by omega)
        (fun i hi => (hshift i).trans (h34 (i + 1) (by omega)))
        (by
          obtain ⟨s, hs, hne⟩ := hk
          exact ⟨s, (hshift k).trans hs, hne⟩)
    refine ⟨w1, sku1, ?_, ?_, hsite.trans hb1, hid, hlink, hcount, hstate⟩
    · simp only [rushLoop, sim_bind_apply, getJD, h0, hrush, and_self, if_true, emit]
      rw [hrun]
      exact hloop
    · rw [hlog, hb2, hb3, hb4]
      simp [pollCycles, wa, r]

theorem getResponse_world (r : Request) (w : World)
    (hreq : ∀ URL, r.rawURL = some URL → w.site.urlParse URL = none) :
    (getResponse r w).world = (clientDo r w).world ∧ ∀ w1, getResponse r w ≠ .running w1 := by
  have h3 : ∀ a : Except GoError Response, Sim.Still (match a with
      | .error err => pure ([], some err)
      | .ok resp => readAll resp : Sim (GoString × Option GoError)) := by
    intro a
    split
    · exact still_pure _
    · exact still_readAll _
  have h4 := bind_still (clientDo r) h3 w
  have h5 : ∀ w1, clientDo r w ≠ .running w1 := by
    intro w1 h
    obtain ⟨a, ha⟩ := clientDo_returns r w
    rw [ha] at h
    cases h
  unfold getResponse
  simp only [sim_bind_apply, getSite]
  cases hraw : r.rawURL with
  | some URL =>
    simp only [hreq URL hraw]
    exact ⟨h4.1, h4.2 h5⟩
  | none => exact ⟨h4.1, h4.2 h5⟩

theorem head_of_bind {α β : Type} {m : Sim α} {f : α → Sim β} {w : World} {e : Event}
    (hlog : (m w).world.log = w.log ++ [e]) (hrun : ∀ w1, m w ≠ .running w1)
    (hf : ∀ a, Sim.NoPoll (f a)) :
    ∃ l2, ((m >>= f) w).world.log = w.log ++ e :: l2 := by
  rw [sim_bind_apply]
  cases hmw : m w with
  | ok a w1 =>
    rw [hmw] at hlog
    obtain ⟨⟨l2, hl2, _⟩, _⟩ := hf a w1
    simp only [Res.world] at hlog
    exact ⟨l2, by rw [hl2, hlog]; simp⟩
  | panic w1 =>
    rw [hmw] at hlog
    exact ⟨[], hlog⟩
  | running w1 => exact absurd hmw (hrun w1)

theorem addToCart_head (sku : SKUInfo) (w : World)
    (hurl : w.site.urlParse (purchaseLink w.site sku) = none) :
    ∃ l2, (addToCart sku w).world.log =
      w.log ++ .request (.link (purchaseLink w.site sku)) :: l2 := by
  unfold addToCart
  rw [sim_bind_apply]
  simp only [getSite]
  simp only [hurl]
  have hg := getResponse_world (.link (purchaseLink w.site sku)) w
    (fun URL h => by cases h; exact hurl)
  refine head_of_bind (by rw [hg.1]; exact (clientDo_world _ w).2.1) hg.2 (fun a => ?_)
  split
  · exact nopoll_pure _
  · split
    · exact nopoll_pure _
    · refine nopoll_ite ?_ (nopoll_pure _)
      refine nopoll_bind (nopoll_ite (nopoll_changeCount _ _) (nopoll_pure _)) (fun a => ?_)
      obtain ⟨count, err⟩ := a
      exact nopoll_ite (nopoll_pure _) (nopoll_pure _)

/-- C3: with rush-mode on, if the first `k` stock probes of an item (the one
stored in `sku.State`, then the re-probes of `buyGood`) report state 34 and
probe `k + 1` reports another state, all without error, then `buyGood`, its
loop granted at least `k` rounds, leaves the loop: what it does is exactly `k`
rounds of sleep and stock request, followed by events that are no polling
events, the first of them the purchase request when the link parses. -/
theorem buyGood_polls_exactly (w : World) (sku : SKUInfo) (k fuel : Nat)
    (hrush : w.jd.AutoRush = true) (hfuel : k ≤ fuel)
    (h34 : ∀ i, i < k → probeState w sku i = some "34".toList)
    (hk : ∃ s, probeState w sku k = some s ∧ s ≠ "34".toList) :
    ∃ tail,
      (buyGood fuel sku w).world.log =
        w.log ++ pollCycles w.jd.Period (.stocks sku.ID w.jd.ShipArea) k ++ tail ∧
      (∀ e ∈ tail, e.isPoll = false) ∧
      (∀ w1, buyGood fuel sku w ≠ .running w1) ∧
      (w.site.urlParse (purchaseLink w.site sku) = none →
        tail.head? = some (.request (.link (purchaseLink w.site sku)))) := by
  obtain ⟨w1, sku1, hloop, hlog, hsite, hid, hlink, hcount, _⟩ :=
    rushLoop_spec k fuel w sku hrush hfuel h34 hk
  have hbuy : buyGood fuel sku w = addToCart sku1 w1 := by
    unfold buyGood
    rw [sim_bind_apply, hloop]
  have hpl : purchaseLink w1.site sku1 = purchaseLink w.site sku := by
    simp only [purchaseLink, hsite, hid, hlink, hcount]
  obtain ⟨⟨tail, htail, hnp⟩, hrun⟩ := nopoll_addToCart sku1 w1
  refine ⟨tail, ?_, hnp, ?_, ?_⟩
  · rw [hbuy, htail, hlog]
  · rw [hbuy]
    exact hrun
  · intro hurl
    obtain ⟨l2, hl2⟩ := addToCart_head sku1 w1 (by rw [hpl, hsite]; exact hurl)
    rw [htail, hpl] at hl2
    rw [List.append_cancel_left hl2]
    rfl


/-- C3, for `k = 2`: the stored state and the first re-probe are 34, the second
re-probe is 33. -/
theorem buyGood_polls_exactly_witness :
    ∃ tail,
      (buyGood 2 (demoSKU 1 "34".toList) restockShop).world.log =
        restockShop.log ++
          pollCycles restockShop.jd.Period
            (.stocks (demoSKU 1 "34".toList).ID restockShop.jd.ShipArea) 2 ++ tail ∧
      (∀ e ∈ tail, e.isPoll = false) ∧
      (∀ w1, buyGood 2 (demoSKU 1 "34".toList) restockShop ≠ .running w1) ∧
      (restockShop.site.urlParse (purchaseLink restockShop.site (demoSKU 1 "34".toList)) = none →
        tail.head? = some (.request (.link
          (purchaseLink restockShop.site (demoSKU 1 "34".toList))))) :=
  buyGood_polls_exactly restockShop (demoSKU 1 "34".toList) 2 2 rfl (Nat.le_refl 2)
    (fun i hi =>
      match i, hi with
      | 0, _ => by decide!
      | 1, _ => by decide!
      | i + 2, h => absurd h (by omega))
    ⟨"33".toList, by decide!, by decide⟩

/-- C4: a purchase response with neither the confirmation heading nor a
product name, fetched and parsed without error, makes `buyGood` return nil. -/
theorem buyGood_nil_without_marker :
    (∃ doc, blankShop.site.newDocument blankPage = .ok doc ∧
      doc.Text "h3.ftx-02".toList = [] ∧ doc.Text "div.p-name a".toList = []) ∧
    (buyGood 0 (demoSKU 1 "33".toList) blankShop).value? = some none ∧
    (buyGood 0 (demoSKU 1 "33".toList) blankShop).world.log =
      [.request (.link "https://cart.jd.com/gate.action?pid=100&pcount=1&ptype=1".toList)] :=
  ⟨⟨_, rfl, by decide!, by decide!⟩, by decide!, by decide!⟩

/-- C5: for the count 2 and a purchase response with the confirmation heading,
a set-quantity answer that reports the count 0 makes `buyGood` return nil. -/
theorem buyGood_nil_on_zero_count :
    (changeCount "100".toList 2 addedShop).value? = some (0, none) ∧
    (buyGood 0 (demoSKU 2 "33".toList) addedShop).value? = some none ∧
    (buyGood 0 (demoSKU 2 "33".toList) addedShop).world.log =
      [.request (.link "https://cart.jd.com/gate.action?pcount=2&pid=100&ptype=1".toList),
       .request (.changeNum "100".toList 2 "1_72_2799_0".toList)] := by
  decide!

theorem getResponse_cases (r : Request) (w : World) :
    (getResponse r w).world = w ∨ (getResponse r w).world = (clientDo r w).world := by
  cases hraw : r.rawURL with
  | none =>
    exact Or.inr (getResponse_world r w (fun URL h => by rw [hraw] at h; cases h)).1
  | some URL =>
    cases hurl : w.site.urlParse URL with
    | none =>
      refine Or.inr (getResponse_world r w (fun u h => ?_)).1
      rw [hraw] at h
      cases h
      exact hurl
    | some err =>
      left
      unfold getResponse
      simp only [sim_bind_apply, getSite, hraw, hurl]
      rfl

theorem skuDetail_of_page_failure (w : World) (id : GoString)
    (h : ∃ data err, (getResponse (.item id) w).value? = some (data, some err) ∨
      ((getResponse (.item id) w).value? = some (data, none) ∧
        w.site.newDocument data = .error err)) :
    ∃ err, skuDetail id w = .ok (none, some err) (getResponse (.item id) w).world := by
  obtain ⟨data, err, h⟩ := h
  have hsite : (getResponse (.item id) w).world.site = w.site := by
    rcases getResponse_cases (.item id) w with hw | hw
    · rw [hw]
    · rw [hw]
      exact (clientDo_world _ w).1
  refine ⟨err, ?_⟩
  unfold skuDetail
  rw [sim_bind_apply]
  generalize getResponse (.item id) w = res at h hsite
  cases res with
  | panic w1 => rcases h with h | ⟨h, _⟩ <;> cases h
  | running w1 => rcases h with h | ⟨h, _⟩ <;> cases h
  | ok a w1 =>
    simp only [Res.world] at hsite
    simp only [Res.value?, Option.some.injEq] at h
    rcases h with h | ⟨h, hdoc⟩
    · subst h
      rfl
    · subst h
      simp only [sim_bind_apply, getSite, hsite, hdoc, sim_pure_apply, Res.world]

/-- C6, as the code has it: a price query that times out does not make
`skuDetail` fail; it returns the item with an empty price, and the task goes on
to the purchase request and the order review. -/
theorem skuDetail_ignores_price_failure :
    (getPrice "100".toList priceDownShop).value? = some ([], some "timeout".toList) ∧
    (skuDetail "100".toList priceDownShop).value? =
      some (some { ID := "100".toList, Price := [], Count := 0, State := "33".toList,
                   StateName := [], Name := [], Link := [] }, none) ∧
    (rushTask 0 "100".toList 1 priceDownShop).world.log =
      [.request (.item "100".toList), .request (.price "100".toList),
       .request (.stocks "100".toList "1_72_2799_0".toList),
       .request (.link "https://cart.jd.com/gate.action?pcount=1&pid=100&ptype=1".toList),
       .request .orderInfo] := by
  decide!

/-- C6, amended: when the fetch of the item page fails, or the page does not
parse, `skuDetail` returns an error and the task of the item ends having sent
at most the request of the item page: no purchase request, no order review, no
submission. -/
theorem rushTask_page_failure (w : World) (id : GoString) (fuel : Nat) (count : Int)
    (h : ∃ data err, (getResponse (.item id) w).value? = some (data, some err) ∨
      ((getResponse (.item id) w).value? = some (data, none) ∧
        w.site.newDocument data = .error err)) :
    (∃ err w1, skuDetail id w = .ok (none, some err) w1) ∧
    ∃ w1 l, rushTask fuel id count w = .ok () w1 ∧ w1.log = w.log ++ l ∧
      ∀ e ∈ l, e = .request (.item id) := by
  obtain ⟨err, hsku⟩ := skuDetail_of_page_failure w id h
  have hlog : ∃ l, (getResponse (.item id) w).world.log = w.log ++ l ∧
      ∀ e ∈ l, e = .request (.item id) := by
    rcases getResponse_cases (.item id) w with hw | hw
    · exact ⟨[], by rw [hw]; simp, by simp⟩
    · exact ⟨[.request (.item id)], by rw [hw]; exact (clientDo_world _ w).2.1, by simp⟩
  obtain ⟨l, hl, hmem⟩ := hlog
  refine ⟨⟨err, _, hsku⟩, (getResponse (.item id) w).world, l, ?_, hl, hmem⟩
  unfold rushTask
  rw [sim_bind_apply, hsku]
  rfl

/-- C6, amended, with the network down. -/
theorem rushTask_page_failure_witness :
    (∃ err w1, skuDetail "100".toList offline = .ok (none, some err) w1) ∧
    ∃ w1 l, rushTask 0 "100".toList 1 offline = .ok () w1 ∧ w1.log = offline.log ++ l ∧
      ∀ e ∈ l, e = .request (.item "100".toList) :=
  rushTask_page_failure offline "100".toList 0 1 ⟨[], "timeout".toList, Or.inl (by decide!)⟩

/-! ## Theorems: the cookie jar -/

theorem SetCookies_eq_foldl (jar : SimpleJar) (cs : List Cookie) :
    jar.SetCookies cs = cs.foldl SimpleJar.setCookie jar := by
  unfold SimpleJar.SetCookies
  cases cs with
  | nil => rfl
  | cons c cs => simp

theorem Get_setCookie_self (jar : SimpleJar) (c : Cookie) :
    (jar.setCookie c).Get c.Name = c.Value := by
  induction jar with
  | nil => simp [SimpleJar.setCookie, SimpleJar.Get]
  | cons old rest ih =>
    by_cases h : c.Name = old.Name
    · simp [SimpleJar.setCookie, SimpleJar.Get, h]
    · have h2 : ¬ old.Name = c.Name := fun e => h e.symm
      simp [SimpleJar.setCookie, SimpleJar.Get, h, h2, ih]

theorem Get_setCookie_ne (jar : SimpleJar) (c : Cookie) (m : GoString) (hm : c.Name ≠ m) :
    (jar.setCookie c).Get m = jar.Get m := by
  induction jar with
  | nil => simp [SimpleJar.setCookie, SimpleJar.Get, hm]
  | cons old rest ih =>
    by_cases h : c.Name = old.Name
    · have h2 : ¬ old.Name = m := fun e => hm (h.trans e)
      simp [SimpleJar.setCookie, SimpleJar.Get, h, h2, hm]
    · by_cases h3 : old.Name = m
      · subst h3
        simp only [SimpleJar.setCookie, h, if_false, SimpleJar.Get, if_true]
      · simp only [SimpleJar.setCookie, h, if_false, SimpleJar.Get, h3, ih]

theorem names_setCookie (jar : SimpleJar) (c : Cookie) :
    (jar.setCookie c).map (fun x => x.Name) =
      if c.Name ∈ jar.map (fun x => x.Name) then jar.map (fun x => x.Name)
      else jar.map (fun x => x.Name) ++ [c.Name] := by
  induction jar with
  | nil => simp [SimpleJar.setCookie]
  | cons old rest ih =>
    by_cases h : c.Name = old.Name
    · simp [SimpleJar.setCookie, h]
    · simp only [SimpleJar.setCookie, h, if_false, List.map_cons, ih, List.mem_cons, false_or]
      split <;> simp

theorem nodup_setCookie (jar : SimpleJar) (c : Cookie)
    (h : (jar.map (fun x => x.Name)).Nodup) :
    ((jar.setCookie c).map (fun x => x.Name)).Nodup := by
  rw [names_setCookie]
  split
  · exact h
  · rename_i hn
    rw [List.nodup_append]
    refine ⟨h, List.nodup_singleton _, ?_⟩
    intro a ha hb
    rw [List.mem_singleton] at hb
    subst hb
    exact hn ha

/-- C15: `SetCookies` is an upsert by cookie name.  After `SetCookies(u, cs)`,
`Get(n)` is the value of the last cookie of `cs` named `n`, for every name that
occurs in `cs`; `Get(m)` is what it was for every name that does not occur in
`cs`; and pairwise distinct names in the jar stay pairwise distinct. -/
theorem SetCookies_upsert (jar : SimpleJar) (cs : List Cookie) :
    (∀ n c, cs.reverse.find? (fun x => decide (x.Name = n)) = some c →
      (jar.SetCookies cs).Get n = c.Value) ∧
    (∀ m, (∀ c ∈ cs, c.Name ≠ m) → (jar.SetCookies cs).Get m = jar.Get m) ∧
    ((jar.map (fun x => x.Name)).Nodup →
      ((jar.SetCookies cs).map (fun x => x.Name)).Nodup) := by
  rw [SetCookies_eq_foldl]
  induction cs using List.reverseRecOn with
  | nil => simp
  | append_singleton cs c ih =>
    obtain ⟨ih1, ih2, ih3⟩ := ih
    rw [List.foldl_append, List.foldl_cons, List.foldl_nil]
    refine ⟨?_, ?_, ?_⟩
    · intro n x hx
      rw [List.reverse_append, List.reverse_singleton, List.singleton_append] at hx
      by_cases hn : c.Name = n
      · rw [List.find?_cons_of_pos _ (by simpa using hn)] at hx
        cases hx
        rw [← hn]
        exact Get_setCookie_self _ _
      · rw [List.find?_cons_of_neg _ (by simpa using hn)] at hx
        rw [Get_setCookie_ne _ _ _ hn]
        exact ih1 n x hx
    · intro m hm
      rw [Get_setCookie_ne _ _ _ (hm c (by simp))]
      exact ih2 m (fun x hx => hm x (by simp [hx]))
    · intro hnd
      exact nodup_setCookie _ _ (ih3 hnd)

/-- C15, for the jar `a=1, b=2` and the cookies `a=3, c=4, a=5`. -/
theorem SetCookies_upsert_witness :
    (demoJar.SetCookies demoCookies).Get "a".toList = "5".toList ∧
    (demoJar.SetCookies demoCookies).Get "b".toList = demoJar.Get "b".toList ∧
    ((demoJar.SetCookies demoCookies).map (fun x => x.Name)).Nodup :=
  ⟨(SetCookies_upsert demoJar demoCookies).1 "a".toList
      { Name := "a".toList, Value := "5".toList } (by decide),
   (SetCookies_upsert demoJar demoCookies).2.1 "b".toList (by decide),
   (SetCookies_upsert demoJar demoCookies).2.2 (by decide)⟩

/-! ## Theorems: the range of a quantity -/

theorem ParseInt_int32 (s : GoString) : isInt32 (ParseInt s 32).1 := by
  unfold isInt32
  cases s with
  | nil => simp [ParseInt]
  | cons c cs =>
    simp only [ParseInt]
    split
    · norm_num
    · split_ifs <;> norm_num
    · rename_i un _
      by_cases hneg : c = '-'
      · simp only [hneg, decide_True, Bool.not_true, Bool.false_eq_true, false_and, if_false,
          true_and, if_true]
        split_ifs
        all_goals norm_num at *
        all_goals omega
      · simp only [hneg, decide_False, Bool.not_false, true_and, false_and, if_false]
        split_ifs
        all_goals norm_num at *
        all_goals omega

theorem set_values (P : Int → Prop) (m : GoMap) (k : GoString) (v : Int)
    (hm : ∀ p ∈ m, P p.2) (hv : P v) : ∀ p ∈ m.set k v, P p.2 := by
  induction m with
  | nil =>
    intro p hp
    simp only [GoMap.set, List.mem_singleton] at hp
    subst hp
    exact hv
  | cons q m ih =>
    obtain ⟨k1, v1⟩ := q
    intro p hp
    by_cases h : k1 = k
    · simp only [GoMap.set, h, if_true, List.mem_cons] at hp
      rcases hp with hp | hp
      · subst hp
        exact hv
      · exact hm p (List.mem_cons_of_mem _ hp)
    · simp only [GoMap.set, h, if_false, List.mem_cons] at hp
      rcases hp with hp | hp
      · subst hp
        exact hm _ (List.mem_cons_self _ _)
      · exact ih (fun p hp => hm p (List.mem_cons_of_mem _ hp)) p hp

theorem get_mem (m : GoMap) (k : GoString) (v : Int) (h : m.get k = some v) : (k, v) ∈ m := by
  induction m with
  | nil => simp [GoMap.get] at h
  | cons q m ih =>
    obtain ⟨k1, v1⟩ := q
    by_cases h1 : k1 = k
    · simp only [GoMap.get, h1, if_true, Option.some.injEq] at h
      subst h1 h
      exact List.mem_cons_self _ _
    · simp only [GoMap.get, h1, if_false] at h
      exact List.mem_cons_of_mem _ (ih h)

theorem parseGood_values (lst : GoMap) (good : GoString) (h : ∀ p ∈ lst, isInt32 p.2) :
    ∀ p ∈ parseGood lst good, isInt32 p.2 := by
  unfold parseGood
  simp only
  split
  · exact set_values isInt32 _ _ _ h (ParseInt_int32 _)
  · exact set_values isInt32 _ _ _ h (by unfold isInt32; norm_num)

theorem foldl_parseGood_values (l : List GoString) (lst : GoMap)
    (h : ∀ p ∈ lst, isInt32 p.2) : ∀ p ∈ l.foldl parseGood lst, isInt32 p.2 := by
  induction l generalizing lst with
  | nil => exact h
  | cons good l ih => exact ih _ (parseGood_values lst good h)

/-- C13, amended: every quantity in the map `parseGoods` returns is a signed
32-bit integer, between `-2^31` and `2^31 - 1`. -/
theorem parseGoods_quantity_int32 (goods k : GoString) (v : Int)
    (h : (parseGoods goods).get k = some v) : -(2 ^ 31 : Int) ≤ v ∧ v ≤ (2 ^ 31 : Int) - 1 :=
  foldl_parseGood_values (goodsEntries goods) [] (by simp) (k, v) (get_mem _ _ _ h)

/-- C13, as the code has it: the quantities of `"A:0,B:-1"` are 0 and -1. -/
theorem parseGoods_quantity_not_positive :
    (parseGoods "A:0,B:-1".toList).get "A".toList = some 0 ∧
    (parseGoods "A:0,B:-1".toList).get "B".toList = some (-1) := by
  decide!

/-- C13, amended, at the entry `B:-1`. -/
theorem parseGoods_quantity_int32_witness :
    (parseGoods "A:0,B:-1".toList).get "B".toList = some (-1) ∧
    (-(2 ^ 31 : Int) ≤ -1 ∧ (-1 : Int) ≤ (2 ^ 31 : Int) - 1) :=
  ⟨by decide!, parseGoods_quantity_int32 "A:0,B:-1".toList "B".toList (-1) (by decide!)⟩

/-! ## Theorems: the stock payload -/

/-- C14, as the code has it: for a payload whose entry for the item has no
`StockState`, `stockState` returns the state `0` and a nil error. -/
theorem stockState_zero_without_state :
    (stockState "100".toList statelessWorld).value? =
      some ("0".toList, "现货".toList, none) := by
  decide!

/-- C14, amended: when the stock payload is fetched, `stockState` returns a
non-nil error if the payload is not valid JSON or has no entry keyed by the item
ID; if it has one, `stockState` returns a nil error with the decimal form of
what `Int()` reads from the member `StockState` of the entry, which is 0 when
that member is absent or is not a number. -/
theorem stockState_of_payload (w : World) (ID data : GoString)
    (hfetch : (getResponse (.stocks ID w.jd.ShipArea) w).value? = some (data, none)) :
    (∀ err, w.site.newJson (w.site.gbk data) = .error err →
      (stockState ID w).value? = some ([], [], some err)) ∧
    (∀ js, w.site.newJson (w.site.gbk data) = .ok js → js.CheckGet ID = none →
      (stockState ID w).value? = some ([], [], some "无效响应数据".toList)) ∧
    (∀ js sku, w.site.newJson (w.site.gbk data) = .ok js → js.CheckGet ID = some sku →
      (stockState ID w).value? =
        some (Itoa (sku.Get "StockState".toList).asInt.1,
          (sku.Get "StockStateName".toList).asString.1, none)) ∧
    (∀ sku : Json, (∀ lit, sku.Get "StockState".toList ≠ .num lit) →
      Itoa (sku.Get "StockState".toList).asInt.1 = "0".toList) := by
  have hsite : (getResponse (.stocks ID w.jd.ShipArea) w).world.site = w.site := by
    rcases getResponse_cases (.stocks ID w.jd.ShipArea) w with hw | hw
    · rw [hw]
    · rw [hw]
      exact (clientDo_world _ w).1
  have hrun : ∀ rest : GoString × Option GoError → Sim (GoString × GoString × Option GoError),
      (getResponse (.stocks ID w.jd.ShipArea) >>= rest) w =
        rest (data, none) (getResponse (.stocks ID w.jd.ShipArea) w).world := by
    intro rest
    rw [sim_bind_apply]
    generalize getResponse (.stocks ID w.jd.ShipArea) w = res at hfetch
    cases res with
    | ok a w1 =>
      simp only [Res.value?, Option.some.injEq] at hfetch
      subst hfetch
      rfl
    | panic w1 => cases hfetch
    | running w1 => cases hfetch
  refine ⟨?_, ?_, ?_, ?_⟩
  · intro err herr
    unfold stockState
    rw [sim_bind_apply]
    simp only [getJD]
    rw [hrun]
    simp only [sim_bind_apply, getSite, hsite, herr, sim_pure_apply, Res.value?]
  · intro js hjs hnone
    unfold stockState
    rw [sim_bind_apply]
    simp only [getJD]
    rw [hrun]
    simp only [sim_bind_apply, getSite, hsite, hjs, hnone, sim_pure_apply, Res.value?]
  · intro js sku hjs hsome
    unfold stockState
    rw [sim_bind_apply]
    simp only [getJD]
    rw [hrun]
    simp only [sim_bind_apply, getSite, hsite, hjs, hsome, sim_pure_apply, Res.value?]
  · intro sku hnum
    have itoa0 : Itoa 0 = "0".toList := by decide
    cases hget : sku.Get "StockState".toList with
    | num lit => exact absurd hget (hnum lit)
    | null => exact itoa0
    | bool b => exact itoa0
    | str x => exact itoa0
    | arr xs => exact itoa0
    | obj kvs => exact itoa0

/-- C14, amended, for a payload that is not JSON. -/
theorem stockState_of_payload_witness :
    (stockState "100".toList garbledShop).value? =
      some ([], [], some "invalid character".toList) :=
  (stockState_of_payload garbledShop "100".toList (stockPayload "x".toList) (by decide!)).1
    "invalid character".toList rfl

/-! ## Theorems: the goroutines of `RushBuy` -/

theorem quiet_of_still {α : Type} {m : Sim α} (hm : Sim.Still m) : Sim.Quiet m := by
  intro w
  rw [(hm w).1]
  exact ⟨rfl, [], by simp, by simp⟩

theorem quiet_bind {α β : Type} {m : Sim α} {f : α → Sim β}
    (hm : Sim.Quiet m) (hf : ∀ a, Sim.Quiet (f a)) : Sim.Quiet (m >>= f) := by
  intro w
  obtain ⟨ha, l, hl, hn⟩ := hm w
  rw [sim_bind_apply]
  cases hmw : m w with
  | ok a w1 =>
    rw [hmw] at ha hl
    simp only [Res.world] at ha hl
    obtain ⟨ha2, l2, hl2, hn2⟩ := hf a w1
    refine ⟨ha2.trans ha, l ++ l2, by rw [hl2, hl, List.append_assoc], ?_⟩
    intro h
    rcases List.mem_append.mp h with h | h
    · exact hn h
    · exact hn2 h
  | panic w1 =>
    rw [hmw] at ha hl
    exact ⟨ha, l, hl, hn⟩
  | running w1 =>
    rw [hmw] at ha hl
    exact ⟨ha, l, hl, hn⟩

theorem quiet_ite {α : Type} {c : Prop} [Decidable c] {m1 m2 : Sim α}
    (h1 : Sim.Quiet m1) (h2 : Sim.Quiet m2) : Sim.Quiet (if c then m1 else m2) := by
  split
  · exact h1
  · exact h2

theorem quiet_emit (e : Event) (he : e ≠ .submitSignal) : Sim.Quiet (emit e) := by
  intro w
  refine ⟨rfl, [e], rfl, ?_⟩
  intro h
  exact he (List.mem_singleton.mp h).symm

theorem quiet_clientDo (r : Request) : Sim.Quiet (clientDo r) := by
  intro w
  refine ⟨?_, [.request r], (clientDo_world r w).2.1, by simp⟩
  unfold clientDo
  cases w.answer r 0 <;> rfl

theorem quiet_getResponse (r : Request) : Sim.Quiet (getResponse r) := by
  unfold getResponse
  refine quiet_bind (quiet_of_still still_getSite) (fun site => ?_)
  dsimp only
  split
  · exact quiet_of_still (still_pure _)
  · refine quiet_bind (quiet_clientDo r) (fun a => ?_)
    split
    · exact quiet_of_still (still_pure _)
    · exact quiet_of_still (still_readAll _)

theorem quiet_getPrice (ID : GoString) : Sim.Quiet (getPrice ID) := by
  unfold getPrice
  refine quiet_bind (quiet_getResponse _) (fun a => ?_)
  split
  · exact quiet_of_still (still_pure _)
  · refine quiet_bind (quiet_of_still still_getSite) (fun site => ?_)
    split <;> exact quiet_of_still (still_pure _)

theorem quiet_stockState (ID : GoString) : Sim.Quiet (stockState ID) := by
  unfold stockState
  refine quiet_bind (quiet_of_still still_getJD) (fun jd => ?_)
  refine quiet_bind (quiet_getResponse _) (fun a => ?_)
  split
  · exact quiet_of_still (still_pure _)
  · refine quiet_bind (quiet_of_still still_getSite) (fun site => ?_)
    dsimp only
    split
    · exact quiet_of_still (still_pure _)
    · split <;> exact quiet_of_still (still_pure _)

theorem quiet_skuDetail (ID : GoString) : Sim.Quiet (skuDetail ID) := by
  unfold skuDetail
  refine quiet_bind (quiet_getResponse _) (fun a => ?_)
  split
  · exact quiet_of_still (still_pure _)
  · refine quiet_bind (quiet_of_still still_getSite) (fun site => ?_)
    split
    · exact quiet_of_still (still_pure _)
    · dsimp only
      refine quiet_bind (quiet_getPrice _) (fun a => ?_)
      refine quiet_bind (quiet_stockState _) (fun b => ?_)
      exact quiet_of_still (still_pure _)

theorem quiet_changeCount (ID : GoString) (count : Int) : Sim.Quiet (changeCount ID count) := by
  unfold changeCount
  refine quiet_bind (quiet_of_still still_getJD) (fun jd => ?_)
  refine quiet_bind (quiet_getResponse _) (fun a => ?_)
  split
  · exact quiet_of_still (still_pure _)
  · refine quiet_bind (quiet_of_still still_getSite) (fun site => ?_)
    split
    · exact quiet_of_still still_panic
    · exact quiet_of_still (still_pure _)

theorem quiet_running {α : Type} : Sim.Quiet (Sim.running : Sim α) :=
  fun w => ⟨rfl, [], by simp [Sim.running, Res.world], by simp⟩

theorem quiet_rushLoop (fuel : Nat) : ∀ sku, Sim.Quiet (rushLoop fuel sku) := by
  induction fuel with
  | zero =>
    intro sku
    unfold rushLoop
    refine quiet_bind (quiet_of_still still_getJD) (fun jd => ?_)
    exact quiet_ite quiet_running (quiet_of_still (still_pure _))
  | succ fuel ih =>
    intro sku
    unfold rushLoop
    refine quiet_bind (quiet_of_still still_getJD) (fun jd => ?_)
    refine quiet_ite ?_ (quiet_of_still (still_pure _))
    refine quiet_bind (quiet_emit _ (by simp)) (fun _ => ?_)
    refine quiet_bind (quiet_stockState _) (fun a => ?_)
    dsimp only
    split
    · exact quiet_of_still (still_pure _)
    · exact ih _

theorem quiet_addToCart (sku : SKUInfo) : Sim.Quiet (addToCart sku) := by
  unfold addToCart
  refine quiet_bind (quiet_of_still still_getSite) (fun site => ?_)
  dsimp only
  split
  · exact quiet_of_still (still_pure _)
  · refine quiet_bind (quiet_getResponse _) (fun a => ?_)
    split
    · exact quiet_of_still (still_pure _)
    · split
      · exact quiet_of_still (still_pure _)
      · refine quiet_ite ?_ (quiet_of_still (still_pure _))
        refine quiet_bind (quiet_ite (quiet_changeCount _ _) (quiet_of_still (still_pure _)))
          (fun a => ?_)
        obtain ⟨count, err⟩ := a
        exact quiet_ite (quiet_of_still (still_pure _)) (quiet_of_still (still_pure _))

theorem quiet_buyGood (fuel : Nat) (sku : SKUInfo) : Sim.Quiet (buyGood fuel sku) := by
  unfold buyGood
  refine quiet_bind (quiet_rushLoop fuel sku) (fun a => ?_)
  split
  · exact quiet_of_still (still_pure _)
  · exact quiet_addToCart _

theorem quiet_OrderInfo : Sim.Quiet OrderInfo := by
  unfold OrderInfo
  refine quiet_bind (quiet_clientDo _) (fun a => ?_)
  split
  · exact quiet_of_still (still_pure _)
  · refine quiet_bind (quiet_of_still still_getSite) (fun site => ?_)
    split
    · exact quiet_of_still (still_pure _)
    · split <;> exact quiet_of_still (still_pure _)

theorem signals_of_quiet {α : Type} {m : Sim α} (n : Nat) (hm : Sim.Quiet m) :
    Sim.Signals n m := by
  intro w
  obtain ⟨ha, l, hl, hn⟩ := hm w
  exact ⟨ha, l, hl, by rw [List.count_eq_zero_of_not_mem hn]; omega, fun h => absurd h hn⟩

theorem signals_bind {α β : Type} {n k : Nat} {m : Sim α} {f : α → Sim β}
    (hm : Sim.Signals n m) (hf : ∀ a, Sim.Signals k (f a)) : Sim.Signals (n + k) (m >>= f) := by
  intro w
  obtain ⟨ha, l, hl, hc, hs⟩ := hm w
  rw [sim_bind_apply]
  cases hmw : m w with
  | ok a w1 =>
    rw [hmw] at ha hl
    simp only [Res.world] at ha hl
    obtain ⟨ha2, l2, hl2, hc2, hs2⟩ := hf a w1
    refine ⟨ha2.trans ha, l ++ l2, by rw [hl2, hl, List.append_assoc], ?_, ?_⟩
    · rw [List.count_append]
      omega
    · intro h
      rcases List.mem_append.mp h with h | h
      · exact hs h
      · rw [← ha]
        exact hs2 h
  | panic w1 =>
    rw [hmw] at ha hl
    exact ⟨ha, l, hl, by omega, hs⟩
  | running w1 =>
    rw [hmw] at ha hl
    exact ⟨ha, l, hl, by omega, hs⟩

theorem signals_send : Sim.Signals 1 (do
    let jd ← getJD
    if jd.AutoSubmit = true then emit .submitSignal else pure () : Sim Unit) := by
  intro w
  simp only [sim_bind_apply, getJD]
  by_cases h : w.jd.AutoSubmit = true
  · rw [if_pos h]
    exact ⟨rfl, [.submitSignal], rfl, by simp, fun _ => h⟩
  · rw [if_neg h]
    exact ⟨rfl, [], by simp [Res.world], by simp, by simp⟩

/-- The goroutine of an item sends on `submitOrderSemp` at most once, and only
when `jd.AutoSubmit` is set: the one condition under which a task of the
goroutine model goes to `sending`. -/
theorem rushTask_signal (fuel : Nat) (id : GoString) (count : Int) :
    Sim.Signals 1 (rushTask fuel id count) := by
  unfold rushTask
  refine signals_bind (n := 0) (k := 1) (signals_of_quiet 0 (quiet_skuDetail id)) (fun a => ?_)
  split
  · exact signals_of_quiet 1 (quiet_of_still (still_pure _))
  · exact signals_of_quiet 1 (quiet_of_still still_panic)
  · refine signals_bind (n := 0) (k := 1) (signals_of_quiet 0 (quiet_buyGood fuel _)) (fun _ => ?_)
    refine signals_bind (n := 0) (k := 1) (signals_of_quiet 0 quiet_OrderInfo) (fun _ => ?_)
    exact signals_send

theorem sum_set_pending (auto : Bool) (l : List TaskPC) (t : Nat) (old new : TaskPC)
    (h : l[t]? = some old) :
    ((l.set t new).map (TaskPC.pending auto)).sum + old.pending auto =
      (l.map (TaskPC.pending auto)).sum + new.pending auto := by
  induction l generalizing t with
  | nil => simp at h
  | cons x l ih =>
    cases t with
    | zero =>
      simp only [List.getElem?_cons_zero, Option.some.injEq] at h
      subst h
      simp only [List.set_cons_zero, List.map_cons, List.sum_cons]
      omega
    | succ t =>
      simp only [List.getElem?_cons_succ] at h
      have := ih t h
      simp only [List.set_cons_succ, List.map_cons, List.sum_cons]
      omega

theorem budget_step (s : RushState) (m : Move) : (s.step m).budget ≤ s.budget := by
  cases m with
  | probe t ok =>
    simp only [RushState.step]
    split
    · rename_i h
      cases ok with
      | true =>
        have := sum_set_pending s.AutoSubmit s.tasks t .probing .buying h
        simp only [if_true, RushState.budget, TaskPC.pending] at this ⊢
        omega
      | false =>
        have := sum_set_pending s.AutoSubmit s.tasks t .probing .finished h
        simp only [Bool.false_eq_true, if_false, RushState.budget, TaskPC.pending] at this ⊢
        omega
    · exact Nat.le_refl _
  | buy t =>
    simp only [RushState.step]
    split
    · rename_i h
      by_cases ha : s.AutoSubmit = true
      · have := sum_set_pending s.AutoSubmit s.tasks t .buying .sending h
        simp only [ha, if_true, RushState.budget, TaskPC.pending] at this ⊢
        omega
      · have := sum_set_pending s.AutoSubmit s.tasks t .buying .finished h
        simp only [ha, Bool.false_eq_true, if_false, RushState.budget, TaskPC.pending] at this ⊢
        omega
    · exact Nat.le_refl _
  | handOver t =>
    simp only [RushState.step]
    split
    · rename_i h
      have := sum_set_pending s.AutoSubmit s.tasks t .sending .finished h.1
      simp only [RushState.budget, TaskPC.pending, WorkerPC.owed, h.2] at this ⊢
      omega
    · exact Nat.le_refl _
  | call =>
    simp only [RushState.step]
    split
    · rename_i h
      simp [RushState.budget, WorkerPC.owed, h]
    · exact Nat.le_refl _
  | submitted =>
    simp only [RushState.step]
    split
    · rename_i h
      simp [RushState.budget, WorkerPC.owed, h]
    · exact Nat.le_refl _
  | token =>
    simp only [RushState.step]
    split
    · rename_i h
      simp [RushState.budget, WorkerPC.owed, h.1]
      omega
    · exact Nat.le_refl _
  | wake =>
    simp only [RushState.step]
    split
    · rename_i h
      simp [RushState.budget, WorkerPC.owed, h]
    · exact Nat.le_refl _
  | receive =>
    simp only [RushState.step]
    split
    · rename_i h
      simp [RushState.budget]
      omega
    · exact Nat.le_refl _

theorem length_step (s : RushState) (m : Move) : (s.step m).tasks.length = s.tasks.length := by
  cases m <;> simp only [RushState.step] <;> split <;> simp

theorem budget_run (schedule : List Move) (s : RushState) :
    (s.run schedule).budget ≤ s.budget ∧ (s.run schedule).tasks.length = s.tasks.length := by
  induction schedule generalizing s with
  | nil => exact ⟨Nat.le_refl _, rfl⟩
  | cons m schedule ih =>
    obtain ⟨h1, h2⟩ := ih (s.step m)
    exact ⟨Nat.le_trans h1 (budget_step s m), h2.trans (length_step s m)⟩

theorem not_returned_of_budget (s : RushState) (h : s.budget < s.tasks.length)
    (schedule : List Move) : (s.run schedule).returned = false := by
  obtain ⟨h1, h2⟩ := budget_run schedule s
  have h3 : (s.run schedule).i ≤ (s.run schedule).budget := by
    unfold RushState.budget
    omega
  simp only [RushState.returned, decide_eq_false_iff_not, h2]
  omega

theorem budget_RushBuy_false (skuLst : GoMap) : (RushBuy skuLst false).budget = 0 := by
  simp only [RushBuy, RushState.budget, WorkerPC.owed, List.map_map]
  induction skuLst with
  | nil => rfl
  | cons p l ih => simpa [TaskPC.pending] using ih

theorem budget_RushBuy_true (skuLst : GoMap) :
    (RushBuy skuLst true).budget = skuLst.length := by
  simp only [RushBuy, RushState.budget, WorkerPC.owed, List.map_map]
  induction skuLst with
  | nil => rfl
  | cons p l ih =>
    simp only [List.map_cons, List.sum_cons, List.length_cons, Function.comp, TaskPC.pending,
      if_true] at ih ⊢
    omega

/-- C11: `RushBuy` does not count the tasks that end without a submission.
For a non-empty item map it never returns when `AutoSubmit` is off, whatever
the schedule, and it never returns when `AutoSubmit` is on and the `skuDetail`
of the first task fails.  For the map `{"100": 1}` with `AutoSubmit` off, once
the task has finished no goroutine can move: the worker and the main goroutine
are both blocked in their receive. -/
theorem RushBuy_blocks_without_submission :
    (∀ (id : GoString) (cnt : Int) (skuLst : GoMap) (schedule : List Move),
      ((RushBuy ((id, cnt) :: skuLst) false).run schedule).returned = false) ∧
    (∀ (id : GoString) (cnt : Int) (skuLst : GoMap) (schedule : List Move),
      ((RushBuy ((id, cnt) :: skuLst) true).run (.probe 0 false :: schedule)).returned = false) ∧
    ((RushBuy [("100".toList, 1)] false).run [.probe 0 true, .buy 0] =
        { AutoSubmit := false, tasks := [.finished], worker := .receiving, endChannel := 0,
          i := 0, log := [.probed 0 true, .bought 0] } ∧
      ∀ m, ((RushBuy [("100".toList, 1)] false).run [.probe 0 true, .buy 0]).step m =
        (RushBuy [("100".toList, 1)] false).run [.probe 0 true, .buy 0]) := by
  refine ⟨?_, ?_, ?_⟩
  · intro id cnt skuLst schedule
    apply not_returned_of_budget
    rw [budget_RushBuy_false]
    simp [RushBuy]
  · intro id cnt skuLst schedule
    have hb := budget_RushBuy_true ((id, cnt) :: skuLst)
    have hstep : ((RushBuy ((id, cnt) :: skuLst) true).step (.probe 0 false)).budget + 1 =
        (RushBuy ((id, cnt) :: skuLst) true).budget := by
      simp only [RushState.step, RushBuy, RushState.budget, WorkerPC.owed, List.map_cons,
        List.getElem?_cons_zero, if_true, Bool.false_eq_true, if_false, List.set_cons_zero,
        List.sum_cons, TaskPC.pending]
      omega
    have hlen : ((RushBuy ((id, cnt) :: skuLst) true).step (.probe 0 false)).tasks.length =
        skuLst.length + 1 := by
      rw [length_step]
      simp [RushBuy]
    show (((RushBuy ((id, cnt) :: skuLst) true).step (.probe 0 false)).run schedule).returned
      = false
    apply not_returned_of_budget
    rw [hlen]
    simp only [List.length_cons] at hb
    omega
  · have hs : (RushBuy [("100".toList, 1)] false).run [.probe 0 true, .buy 0] =
        { AutoSubmit := false, tasks := [.finished], worker := .receiving, endChannel := 0,
          i := 0, log := [.probed 0 true, .bought 0] } := by decide
    refine ⟨hs, ?_⟩
    rw [hs]
    intro m
    cases m with
    | probe t ok => cases t <;> simp [RushState.step]
    | buy t => cases t <;> simp [RushState.step]
    | handOver t => cases t <;> simp [RushState.step]
    | call => simp [RushState.step]
    | submitted => simp [RushState.step]
    | token => simp [RushState.step]
    | wake => simp [RushState.step]
    | receive => simp [RushState.step]

theorem serial_step (s : RushState) (m : Move) (h : s.Serial) : (s.step m).Serial := by
  obtain ⟨k, hk⟩ := h
  cases m with
  | probe t ok =>
    simp only [RushState.step]
    split
    · exact ⟨k, by simp [RushEvent.ofWorker, hk]⟩
    · exact ⟨k, hk⟩
  | buy t =>
    simp only [RushState.step]
    split
    · exact ⟨k, by simp [RushEvent.ofWorker, hk]⟩
    · exact ⟨k, hk⟩
  | handOver t =>
    simp only [RushState.step]
    split
    · rename_i h
      rw [h.2] at hk
      exact ⟨k, by simp [RushEvent.ofWorker, hk, WorkerPC.progress]⟩
    · exact ⟨k, hk⟩
  | call =>
    simp only [RushState.step]
    split
    · rename_i h
      rw [h] at hk
      exact ⟨k, by simp [RushEvent.ofWorker, hk, WorkerPC.progress]⟩
    · exact ⟨k, hk⟩
  | submitted =>
    simp only [RushState.step]
    split
    · rename_i h
      rw [h] at hk
      exact ⟨k, by simp [RushEvent.ofWorker, hk, WorkerPC.progress]⟩
    · exact ⟨k, hk⟩
  | token =>
    simp only [RushState.step]
    split
    · rename_i h
      rw [h.1] at hk
      exact ⟨k, by simp [RushEvent.ofWorker, hk, WorkerPC.progress]⟩
    · exact ⟨k, hk⟩
  | wake =>
    simp only [RushState.step]
    split
    · rename_i h
      rw [h] at hk
      exact ⟨k + 1, by simp [RushEvent.ofWorker, hk, WorkerPC.progress, workerRounds, workerRound]⟩
    · exact ⟨k, hk⟩
  | receive =>
    simp only [RushState.step]
    split
    · exact ⟨k, by simp [RushEvent.ofWorker, hk]⟩
    · exact ⟨k, hk⟩

theorem serial_run (schedule : List Move) (s : RushState) (h : s.Serial) :
    (s.run schedule).Serial := by
  induction schedule generalizing s with
  | nil => exact h
  | cons m schedule ih => exact ih (s.step m) (serial_step s m h)

theorem count_workerRounds (k : Nat) :
    (workerRounds k).count .submitCall = k ∧ (workerRounds k).count .submitReturn = k := by
  induction k with
  | zero => exact ⟨rfl, rfl⟩
  | succ k ih =>
    simp only [workerRounds, List.count_append, ih.1, ih.2]
    exact ⟨rfl, rfl⟩

/-- C12: in every run of `RushBuy`, at every moment, the events of the worker
are full rounds of receive, call of `SubmitOrder`, return of the call, token,
one second of sleep, followed by the start of one more round: a request is
received only after the call before it has returned and the sleep after it is
over.  The calls of `SubmitOrder` outnumber the returns by one while the worker
is in the call and by none otherwise, so no two calls overlap. -/
theorem RushBuy_submissions_serial (skuLst : GoMap) (AutoSubmit : Bool)
    (schedule : List Move) :
    (∃ k, (((RushBuy skuLst AutoSubmit).run schedule).log.filter RushEvent.ofWorker) =
      workerRounds k ++ ((RushBuy skuLst AutoSubmit).run schedule).worker.progress) ∧
    ((RushBuy skuLst AutoSubmit).run schedule).log.count .submitCall =
      ((RushBuy skuLst AutoSubmit).run schedule).log.count .submitReturn +
        (if ((RushBuy skuLst AutoSubmit).run schedule).worker = .inCall then 1 else 0) := by
  have h := serial_run schedule (RushBuy skuLst AutoSubmit) ⟨0, rfl⟩
  refine ⟨h, ?_⟩
  obtain ⟨k, hk⟩ := h
  have h1 := List.count_filter (l := ((RushBuy skuLst AutoSubmit).run schedule).log)
    (p := RushEvent.ofWorker) (a := RushEvent.submitCall) rfl
  have h2 := List.count_filter (l := ((RushBuy skuLst AutoSubmit).run schedule).log)
    (p := RushEvent.ofWorker) (a := RushEvent.submitReturn) rfl
  rw [← h1, ← h2, hk, List.count_append, List.count_append, (count_workerRounds k).1,
    (count_workerRounds k).2]
  cases ((RushBuy skuLst AutoSubmit).run schedule).worker <;> simp [WorkerPC.progress]

end GoJd
